import Mathlib

/-!
Publish/subscribe broker: registry and fan-out.

A shallow embedding of `pubsub.go`.

* A `*Peer` is embedded as the value `Peer` it points to: peers are never
  mutated after construction and the code compares them field by field.
* The Go map `map[string][]*Peer` is embedded as a finite-support function
  `String → Option (List Peer)`: `none` is "key absent" (`ok == false`),
  `some l` is "key present with slice `l`".  The code never iterates over the
  map, so nothing else of a Go map is observable.
* Every method takes the handler state and returns the new state together with
  its Go results.  A `go p.WriteData(peer, topic, message)` statement is
  recorded as a `Delivery` in the list of dispatched calls.
* The HTTP handlers take the parsed query and the result of reading the body, and
  return the new state and the status code written.  `strconv.Atoi` is the
  standard library's parser for a 64-bit `int`.
* The URL a delivery goes to is the URL text of `WriteData` as `net/url` parses it
  and `net/http` sends it (`postTarget`).
* Two `Subscribe` calls on separate goroutines are embedded as a schedule over the
  steps of each call (`runSchedule`).
-/

namespace PubSub

/-! ## Data model -/

/-- Peer: the struct with fields `ip string` and `port int`.  The port is only stored,
compared and printed, never computed with, so the machine `int` is embedded in `Int`. -/
structure Peer where
  ip : String
  port : Int
deriving DecidableEq

/-- Message payloads, Go's `[]byte`. -/
abbrev Bytes := List UInt8

/-- The registry map type `map[string][]*Peer`. -/
abbrev SubsMap := String → Option (List Peer)

/-- PubSubHandler: the struct with the single field `subs`. -/
structure PubSubHandler where
  subs : SubsMap

/-- Map assignment `m[k] = v`. -/
def SubsMap.set (m : SubsMap) (k : String) (v : List Peer) : SubsMap :=
  fun k' => if k' = k then some v else m k'

/-- Map read `m[k]` in value position: the zero value (nil slice) when the key is absent. -/
def SubsMap.read (m : SubsMap) (k : String) : List Peer :=
  match m k with
  | some l => l
  | none => []

/-- Formatting of an `int` by the `%d` verb: an optional minus sign and the decimal digits. -/
def fmtInt (n : Int) : String :=
  match n with
  | Int.ofNat m => Nat.repr m
  | Int.negSucc m => "-" ++ Nat.repr (m + 1)

/-- Url: `fmt.Sprintf("http://%s:%d", p.ip, p.port)`. -/
def Peer.Url (p : Peer) : String :=
  "http://" ++ p.ip ++ ":" ++ fmtInt p.port

/-- NewPubSubHandler: a handler with an empty map. -/
def NewPubSubHandler : PubSubHandler :=
  ⟨fun _ => none⟩

/-! ## Registry operations -/

/-- The `for idx, peer := range peerList` loop of `Unsubscribe`, started at index `idx`
on the remaining suffix: the index and the entry of the first match, if any. -/
def Unsubscribe.scan (peerIp : String) (peerPort : Int) : List Peer → Nat → Option (Nat × Peer)
  | [], _ => none
  | peer :: rest, idx =>
    if peer.ip = peerIp ∧ peer.port = peerPort then some (idx, peer)
    else Unsubscribe.scan peerIp peerPort rest (idx + 1)

/-- Unsubscribe: on the first entry with the given ip and port, stores
`append(peerList[:idx], peerList[idx+1:]...)` and returns the entry; otherwise returns nil. -/
def Unsubscribe (p : PubSubHandler) (topic peerIp : String) (peerPort : Int) :
    PubSubHandler × Option Peer :=
  match p.subs topic with
  | some peerList =>
    match Unsubscribe.scan peerIp peerPort peerList 0 with
    | some (idx, peer) =>
      (⟨p.subs.set topic (peerList.take idx ++ peerList.drop (idx + 1))⟩, some peer)
    | none => (p, none)
  | none => (p, none)

/-- Subscribe: unsubscribes the endpoint, creates the topic entry when absent, appends the
new peer; returns the new peer and a nil error. -/
def Subscribe (p : PubSubHandler) (topic peerIp : String) (peerPort : Int) :
    PubSubHandler × Option Peer × Option String :=
  let p1 := (Unsubscribe p topic peerIp peerPort).1
  let newPeer : Peer := ⟨peerIp, peerPort⟩
  let p2 : PubSubHandler :=
    match p1.subs topic with
    | some _ => p1
    | none => ⟨p1.subs.set topic []⟩
  let p3 : PubSubHandler := ⟨p2.subs.set topic (p2.subs.read topic ++ [newPeer])⟩
  (p3, some newPeer, none)

/-! ## Fan-out -/

/-- The request issued by `http.Post(url, "text", bytes.NewBuffer(message))`. -/
structure PostRequest where
  url : String
  contentType : String
  body : Bytes
deriving DecidableEq

/-- One dispatched `go p.WriteData(peer, topic, message)`. -/
structure Delivery where
  peer : Peer
  topic : String
  message : Bytes
deriving DecidableEq

/-- WriteData, up to the outbound call: the POST request it issues. -/
def WriteData.request (peer : Peer) (topic : String) (message : Bytes) : PostRequest :=
  ⟨peer.Url ++ "?topic=" ++ topic, "text", message⟩

/-- Publish: an error for a topic without map entry, otherwise one dispatched `WriteData`
per entry of the topic's slice and a nil error. -/
def Publish (p : PubSubHandler) (topic : String) (message : Bytes) :
    PubSubHandler × Option String × List Delivery :=
  match p.subs topic with
  | none => (p, some ("Publish: could not find topic " ++ topic), [])
  | some peerList => (p, none, peerList.map (fun peer => Delivery.mk peer topic message))

/-! ## Sequences of calls -/

/-- A call of one of the three registry methods. -/
inductive Op where
  | subscribe (topic peerIp : String) (peerPort : Int)
  | unsubscribe (topic peerIp : String) (peerPort : Int)
  | publish (topic : String) (message : Bytes)

/-- The handler state after one call. -/
def Op.apply (p : PubSubHandler) : Op → PubSubHandler
  | Op.subscribe topic peerIp peerPort => (Subscribe p topic peerIp peerPort).1
  | Op.unsubscribe topic peerIp peerPort => (Unsubscribe p topic peerIp peerPort).1
  | Op.publish topic message => (Publish p topic message).1

/-- The handler state after a finite sequence of calls, first call first. -/
def runOps (p : PubSubHandler) (ops : List Op) : PubSubHandler :=
  ops.foldl Op.apply p

/-- Whether a call is a `Subscribe` on the given topic. -/
def Op.isSubscribeOn (topic : String) : Op → Bool
  | Op.subscribe t _ _ => decide (t = topic)
  | _ => false

/-! ## Delivery -/

/-- What `http.Post` hands back: a transport error, or a response with its status code. -/
inductive PostResult where
  | failed (err : String)
  | response (statusCode : Int)

/-- The `%v` rendering of a `*Peer`: an ampersand and the fields in braces. -/
def Peer.fmtV (p : Peer) : String :=
  "&\x7b" ++ p.ip ++ " " ++ fmtInt p.port ++ "\x7d"

/-- WriteData: posts the message to the peer; a transport error or a status other than 200
is printed and dropped.  Returns the handler state and the line printed, if any. -/
def WriteData (p : PubSubHandler) (peer : Peer) (topic : String) (message : Bytes)
    (post : PostRequest → PostResult) : PubSubHandler × Option String :=
  match post (WriteData.request peer topic message) with
  | PostResult.failed err =>
    (p, some ("topic: " ++ topic ++ ", peer: " ++ peer.fmtV ++ " failed with error " ++ err ++ "\n"))
  | PostResult.response statusCode =>
    if statusCode ≠ 200 then
      (p, some ("topic: " ++ topic ++ ", peer: " ++ peer.fmtV ++ " failed with status code " ++
        fmtInt statusCode ++ "\n"))
    else (p, none)

/-- The dispatched deliveries run to completion, in list order, the attempt number `i`
getting the network answer `net i`: the handler state afterwards and the lines printed. -/
def deliverAll (net : Nat → PostRequest → PostResult) :
    Nat → PubSubHandler → List Delivery → PubSubHandler × List (Option String)
  | _, p, [] => (p, [])
  | i, p, d :: ds =>
    let r := WriteData p d.peer d.topic d.message (net i)
    let rs := deliverAll net (i + 1) r.1 ds
    (rs.1, r.2 :: rs.2)

/-! ## HTTP adapters -/

/-- Parsed query parameters, `url.Values`: for every key its values in order of appearance. -/
abbrev Values := String → List String

/-- Get: the first value of the key, the empty string when the key has no value. -/
def Values.Get (v : Values) (key : String) : String :=
  match v key with
  | [] => ""
  | x :: _ => x

/-- The query values of a list of `key=value` pairs. -/
def Values.ofPairs (kvs : List (String × String)) : Values :=
  fun key => (kvs.filter (fun kv => decide (kv.1 = key))).map Prod.snd

/-- The digit loop of the integer parser: every byte must be a decimal digit. -/
def parseDigits : List Char → Nat → Option Nat
  | [], n => some n
  | ch :: rest, n =>
    if 48 ≤ ch.toNat ∧ ch.toNat ≤ 57 then parseDigits rest (n * 10 + (ch.toNat - 48))
    else none

/-- The value of a decimal integer string: an optional sign `+` or `-` followed by one or
more decimal digits; `none` for every other string. -/
def parseDecimal (s : String) : Option Int :=
  match s.data with
  | [] => none
  | c :: rest =>
    if c = '-' then
      if rest = [] then none
      else (parseDigits rest 0).map (fun n => -(n : Int))
    else if c = '+' then
      if rest = [] then none
      else (parseDigits rest 0).map (fun n => (n : Int))
    else (parseDigits (c :: rest) 0).map (fun n => (n : Int))

/-- The standard library's `strconv.Atoi` for a 64-bit `int`: the value of a decimal integer
string that fits the type, an error (`none`) on a syntax error or a value out of range. -/
def Atoi (s : String) : Option Int :=
  match parseDecimal s with
  | some v => if -(2 : Int) ^ 63 ≤ v ∧ v < (2 : Int) ^ 63 then some v else none
  | none => none

/-- An inbound request as the handlers read it: the parsed query `r.URL.Query()` and the
result of `io.ReadAll(r.Body)`. -/
structure Request where
  query : Values
  body : Except String Bytes

/-- SubscribeHandler: status 400 for an empty `topic`, `peerIp` or `peerPort` or a `peerPort`
that `Atoi` rejects; otherwise `Subscribe` and status 200.  Returns the handler state and the
status written; the body text written after the header is left out. -/
def SubscribeHandler (p : PubSubHandler) (r : Request) : PubSubHandler × Nat :=
  let vals := r.query
  let topic := vals.Get "topic"
  if topic = "" then (p, 400)
  else
    let peerIp := vals.Get "peerIp"
    if peerIp = "" then (p, 400)
    else
      let peerPort := vals.Get "peerPort"
      if peerPort = "" then (p, 400)
      else
        match Atoi peerPort with
        | none => (p, 400)
        | some peerPortInt => ((Subscribe p topic peerIp peerPortInt).1, 200)

/-- PublishHandler: status 400 for an empty `topic`, an unreadable body or an error from
`Publish`; otherwise status 200.  Returns the handler state, the status written and the
deliveries dispatched; the body text written after the header is left out. -/
def PublishHandler (p : PubSubHandler) (r : Request) : PubSubHandler × Nat × List Delivery :=
  let vals := r.query
  let topic := vals.Get "topic"
  if topic = "" then (p, 400, [])
  else
    match r.body with
    | Except.error _ => (p, 400, [])
    | Except.ok fullBody =>
      match Publish p topic fullBody with
      | (p', some _, ds) => (p', 400, ds)
      | (p', none, ds) => (p', 200, ds)

/-! ## Two Subscribe calls in flight

`net/http` runs every request on its own goroutine and `PubSubHandler` holds no lock, so the
statements of two `Subscribe` calls can alternate.  `Subscribe` is cut at its accesses to the
map of the last statement, `p.subs[topic] = append(p.subs[topic], newPeer)`: the read of the
right-hand side and the assignment. -/

/-- Subscribe, the statements before the append: the `Unsubscribe` call and the creation of
the topic entry when absent. -/
def Subscribe.prepare (p : PubSubHandler) (topic peerIp : String) (peerPort : Int) :
    PubSubHandler :=
  let p1 := (Unsubscribe p topic peerIp peerPort).1
  match p1.subs topic with
  | some _ => p1
  | none => ⟨p1.subs.set topic []⟩

/-- Subscribe, the right-hand side `append(p.subs[topic], newPeer)`: the slice the call
holds before it assigns. -/
def Subscribe.readAppend (p : PubSubHandler) (topic peerIp : String) (peerPort : Int) :
    List Peer :=
  p.subs.read topic ++ [⟨peerIp, peerPort⟩]

/-- Subscribe, the assignment `p.subs[topic] = ...` of the slice held. -/
def Subscribe.write (p : PubSubHandler) (topic : String) (held : List Peer) : PubSubHandler :=
  ⟨p.subs.set topic held⟩

/-- The arguments of a `Subscribe` call. -/
structure SubscribeCall where
  topic : String
  peerIp : String
  peerPort : Int

/-- How far a `Subscribe` call has got. -/
inductive SubscribeProgress where
  | start
  | prepared
  | appended (held : List Peer)
  | returned
deriving DecidableEq

/-- The next step of a `Subscribe` call on the shared handler. -/
def SubscribeCall.step (c : SubscribeCall) (p : PubSubHandler) :
    SubscribeProgress → PubSubHandler × SubscribeProgress
  | SubscribeProgress.start =>
    (Subscribe.prepare p c.topic c.peerIp c.peerPort, SubscribeProgress.prepared)
  | SubscribeProgress.prepared =>
    (p, SubscribeProgress.appended (Subscribe.readAppend p c.topic c.peerIp c.peerPort))
  | SubscribeProgress.appended held =>
    (Subscribe.write p c.topic held, SubscribeProgress.returned)
  | SubscribeProgress.returned => (p, SubscribeProgress.returned)

/-- Two `Subscribe` calls on one handler. -/
structure TwoCalls where
  handler : PubSubHandler
  first : SubscribeProgress
  second : SubscribeProgress

/-- Two `Subscribe` calls about to start on the handler. -/
def TwoCalls.init (p : PubSubHandler) : TwoCalls :=
  ⟨p, SubscribeProgress.start, SubscribeProgress.start⟩

/-- The two calls run under a schedule: `false` lets the first call take its next step,
`true` the second. -/
def runSchedule (c1 c2 : SubscribeCall) : TwoCalls → List Bool → TwoCalls
  | s, [] => s
  | s, false :: rest =>
    runSchedule c1 c2
      ⟨(c1.step s.handler s.first).1, (c1.step s.handler s.first).2, s.second⟩ rest
  | s, true :: rest =>
    runSchedule c1 c2
      ⟨(c2.step s.handler s.second).1, s.first, (c2.step s.handler s.second).2⟩ rest

/-! ## The URL a POST goes to

`http.Post` parses the URL string with `net/url` and sends the request to the parsed host with
the request URI of the parsed URL, in which an empty path is sent as `/`.  The standard
library's parser is embedded for scheme `http`, a host name or IPv4 address with an optional
decimal port, a plain path, any query and a fragment without escapes.  Everything else (user
information, IPv6 literals, escapes, an empty port) is marked `unmodelled`. -/

/-- Cut: the text before the first occurrence of the separator and, when there is one, the
text after it (`strings.Cut` on a one-byte separator). -/
def cutAt (sep : Char) : List Char → List Char × Option (List Char)
  | [] => ([], none)
  | c :: cs => if c = sep then ([], some cs) else (c :: (cutAt sep cs).1, (cutAt sep cs).2)

/-- An ASCII control byte: below 0x20, or 0x7f. -/
def isCTLByte (c : Char) : Bool :=
  decide (c.toNat < 32 ∨ c.toNat = 127)

/-- A decimal digit. -/
def isDigitByte (c : Char) : Bool :=
  decide (48 ≤ c.toNat ∧ c.toNat ≤ 57)

/-- An ASCII letter or digit. -/
def isAlnumByte (c : Char) : Bool :=
  decide ((48 ≤ c.toNat ∧ c.toNat ≤ 57) ∨ (65 ≤ c.toNat ∧ c.toNat ≤ 90) ∨
    (97 ≤ c.toNat ∧ c.toNat ≤ 122))

/-- A byte of a host name or IPv4 address: a letter, a digit, a dot or a hyphen. -/
def isHostByte (c : Char) : Bool :=
  isAlnumByte c || decide (c.toNat = 46) || decide (c.toNat = 45)

/-- A byte that a path carries unescaped, here: a letter, a digit, or one of `/ : . - _ ~`. -/
def isPathByte (c : Char) : Bool :=
  isAlnumByte c || decide (c.toNat = 47) || decide (c.toNat = 58) || decide (c.toNat = 46) ||
    decide (c.toNat = 45) || decide (c.toNat = 95) || decide (c.toNat = 126)

/-- What becomes of a POST to a URL string: sent to a URL (scheme, host and request URI),
rejected by the URL parser so that nothing is sent, or outside the URLs embedded here. -/
inductive PostTarget where
  | sent (url : String)
  | rejected
  | unmodelled
deriving DecidableEq

/-- The target of a POST, from the URL text after `http://`.  The fragment is cut off first
and is not sent; the rest must be free of control bytes; the query is what follows the first
`?`; the authority runs up to the first `/`, the path from there. -/
def postTargetOf (rest : List Char) : PostTarget :=
  let f := cutAt '#' rest
  let u := f.1
  let escapedFragment : Bool :=
    match f.2 with
    | some frag => frag.any (fun c => decide (c = '%'))
    | none => false
  if escapedFragment then PostTarget.unmodelled
  else if u.any isCTLByte then PostTarget.rejected
  else
    let q := cutAt '?' u
    let a := cutAt '/' q.1
    let authority := a.1
    let path : List Char :=
      match a.2 with
      | some p => '/' :: p
      | none => []
    let h := cutAt ':' authority
    let requestURI : List Char :=
      (if path = [] then ['/'] else path) ++
        (match q.2 with
         | some rawQuery => '?' :: rawQuery
         | none => [])
    if h.1 = [] ∨ h.1.all isHostByte = false ∨ path.all isPathByte = false then
      PostTarget.unmodelled
    else
      match h.2 with
      | none => PostTarget.sent (String.mk ("http://".data ++ authority ++ requestURI))
      | some port =>
        if port = [] ∨ port.any (fun c => decide (c = ':' ∨ c = '@')) then
          PostTarget.unmodelled
        else if port.all isDigitByte then
          PostTarget.sent (String.mk ("http://".data ++ authority ++ requestURI))
        else PostTarget.rejected

/-- The target of `http.Post(rawURL, ...)`. -/
def postTarget (rawURL : String) : PostTarget :=
  if rawURL.data.take 7 = "http://".data then postTargetOf (rawURL.data.drop 7)
  else PostTarget.unmodelled

/-! ## Auxiliary lemmas -/

theorem Peer.eq_mk_iff (peer : Peer) (peerIp : String) (peerPort : Int) :
    (peer.ip = peerIp ∧ peer.port = peerPort) ↔ peer = ⟨peerIp, peerPort⟩ := by
  cases peer
  simp

theorem PubSubHandler.eq_of_subs {p q : PubSubHandler} (h : ∀ t, p.subs t = q.subs t) :
    p = q := by
  cases p
  cases q
  simp only [PubSubHandler.mk.injEq]
  exact funext h

theorem SubsMap.set_same (m : SubsMap) (k : String) (v : List Peer) :
    SubsMap.set m k v k = some v := by
  simp [SubsMap.set]

theorem SubsMap.set_other (m : SubsMap) (k : String) (v : List Peer) (k' : String)
    (h : k' ≠ k) : SubsMap.set m k v k' = m k' := by
  simp [SubsMap.set, h]

theorem SubsMap.set_set (m : SubsMap) (k : String) (v w : List Peer) :
    SubsMap.set (SubsMap.set m k v) k w = SubsMap.set m k w := by
  funext k'
  by_cases h : k' = k <;> simp [SubsMap.set, h]

theorem SubsMap.read_some {m : SubsMap} {k : String} {l : List Peer} (h : m k = some l) :
    SubsMap.read m k = l := by
  simp [SubsMap.read, h]

theorem SubsMap.read_none {m : SubsMap} {k : String} (h : m k = none) :
    SubsMap.read m k = [] := by
  simp [SubsMap.read, h]

/-- The scan finds nothing when no entry has the given ip and port. -/
theorem scan_of_not_mem (peerIp : String) (peerPort : Int) :
    ∀ (l : List Peer) (k : Nat), (⟨peerIp, peerPort⟩ : Peer) ∉ l →
      Unsubscribe.scan peerIp peerPort l k = none := by
  intro l
  induction l with
  | nil => intro k _; rfl
  | cons peer rest ih =>
    intro k hmem
    have hne : ¬ (peer.ip = peerIp ∧ peer.port = peerPort) := by
      rw [Peer.eq_mk_iff]
      intro h
      exact hmem (h ▸ List.mem_cons_self _ _)
    have hrest : (⟨peerIp, peerPort⟩ : Peer) ∉ rest :=
      fun h => hmem (List.mem_cons_of_mem _ h)
    simp only [Unsubscribe.scan, hne, if_false]
    exact ih (k + 1) hrest

/-- On a match the scan returns the first matching position; splicing that position out
is the removal of the first occurrence. -/
theorem scan_of_mem (peerIp : String) (peerPort : Int) :
    ∀ (l : List Peer) (k : Nat), (⟨peerIp, peerPort⟩ : Peer) ∈ l →
      ∃ i, Unsubscribe.scan peerIp peerPort l k = some (k + i, ⟨peerIp, peerPort⟩) ∧
        l = l.take i ++ ⟨peerIp, peerPort⟩ :: l.drop (i + 1) ∧
        (⟨peerIp, peerPort⟩ : Peer) ∉ l.take i ∧
        l.take i ++ l.drop (i + 1) = l.erase ⟨peerIp, peerPort⟩ := by
  intro l
  induction l with
  | nil => intro k h; cases h
  | cons peer rest ih =>
    intro k hmem
    by_cases hp : peer.ip = peerIp ∧ peer.port = peerPort
    · have hpe : peer = ⟨peerIp, peerPort⟩ := (Peer.eq_mk_iff _ _ _).1 hp
      refine ⟨0, ?_, ?_, ?_, ?_⟩
      · simp [Unsubscribe.scan, hp, hpe]
      · simp [hpe]
      · simp
      · simp [hpe]
    · have hpe : peer ≠ ⟨peerIp, peerPort⟩ := fun h => hp ((Peer.eq_mk_iff _ _ _).2 h)
      have hrest : (⟨peerIp, peerPort⟩ : Peer) ∈ rest := by
        rcases List.mem_cons.1 hmem with h | h
        · exact absurd h.symm hpe
        · exact h
      obtain ⟨i, h1, h2, h3, h4⟩ := ih (k + 1) hrest
      refine ⟨i + 1, ?_, ?_, ?_, ?_⟩
      · simp only [Unsubscribe.scan, hp, if_false]
        rw [h1]
        congr 2
        omega
      · simp only [List.take_succ_cons, List.drop_succ_cons, List.cons_append]
        rw [← h2]
      · simp only [List.take_succ_cons, List.mem_cons, not_or]
        exact ⟨fun h => hpe h.symm, h3⟩
      · simp only [List.take_succ_cons, List.drop_succ_cons, List.cons_append]
        rw [h4, List.erase_cons_tail]
        simpa using hpe

theorem Unsubscribe_absent (p : PubSubHandler) (topic peerIp : String) (peerPort : Int)
    (h : p.subs topic = none) : Unsubscribe p topic peerIp peerPort = (p, none) := by
  simp [Unsubscribe, h]

theorem Unsubscribe_not_mem (p : PubSubHandler) (topic peerIp : String) (peerPort : Int)
    (l : List Peer) (h : p.subs topic = some l) (hmem : (⟨peerIp, peerPort⟩ : Peer) ∉ l) :
    Unsubscribe p topic peerIp peerPort = (p, none) := by
  simp [Unsubscribe, h, scan_of_not_mem peerIp peerPort l 0 hmem]

theorem Unsubscribe_mem (p : PubSubHandler) (topic peerIp : String) (peerPort : Int)
    (l : List Peer) (h : p.subs topic = some l) (hmem : (⟨peerIp, peerPort⟩ : Peer) ∈ l) :
    Unsubscribe p topic peerIp peerPort =
      (⟨p.subs.set topic (l.erase ⟨peerIp, peerPort⟩)⟩, some ⟨peerIp, peerPort⟩) := by
  obtain ⟨i, h1, _, _, h4⟩ := scan_of_mem peerIp peerPort l 0 hmem
  simp only [Nat.zero_add] at h1
  simp [Unsubscribe, h, h1, h4]

/-- The map after `Subscribe`: the topic's slice with the first occurrence of the endpoint
removed and the endpoint appended; every other key untouched. -/
theorem Subscribe_subs (p : PubSubHandler) (topic peerIp : String) (peerPort : Int) :
    (Subscribe p topic peerIp peerPort).1.subs =
      p.subs.set topic ((p.subs.read topic).erase ⟨peerIp, peerPort⟩ ++ [⟨peerIp, peerPort⟩]) := by
  cases h : p.subs topic with
  | none =>
    simp [Subscribe, Unsubscribe_absent p topic peerIp peerPort h, h, SubsMap.read_none h,
      SubsMap.set_set, SubsMap.set_same, SubsMap.read]
  | some l =>
    by_cases hmem : (⟨peerIp, peerPort⟩ : Peer) ∈ l
    · simp [Subscribe, Unsubscribe_mem p topic peerIp peerPort l h hmem, h,
        SubsMap.set_set, SubsMap.set_same, SubsMap.read]
    · simp [Subscribe, Unsubscribe_not_mem p topic peerIp peerPort l h hmem, h,
        SubsMap.read_some h, SubsMap.read, List.erase_of_not_mem hmem]

theorem SubsMap.read_set (m : SubsMap) (k : String) (v : List Peer) (k' : String) :
    SubsMap.read (SubsMap.set m k v) k' = if k' = k then v else SubsMap.read m k' := by
  by_cases h : k' = k <;> simp [SubsMap.read, SubsMap.set, h]

/-- The state after `Unsubscribe`, in terms of the topic's slice read as a value. -/
theorem Unsubscribe_fst (p : PubSubHandler) (topic peerIp : String) (peerPort : Int) :
    (Unsubscribe p topic peerIp peerPort).1 =
      if (⟨peerIp, peerPort⟩ : Peer) ∈ p.subs.read topic then
        ⟨p.subs.set topic ((p.subs.read topic).erase ⟨peerIp, peerPort⟩)⟩
      else p := by
  cases h : p.subs topic with
  | none => simp [Unsubscribe_absent p topic peerIp peerPort h, SubsMap.read_none h]
  | some l =>
    by_cases hmem : (⟨peerIp, peerPort⟩ : Peer) ∈ l
    · simp [Unsubscribe_mem p topic peerIp peerPort l h hmem, SubsMap.read_some h, hmem]
    · simp [Unsubscribe_not_mem p topic peerIp peerPort l h hmem, SubsMap.read_some h, hmem]

theorem nodup_erase_concat {l : List Peer} (h : l.Nodup) (e : Peer) :
    (l.erase e ++ [e]).Nodup := by
  rw [List.nodup_append]
  refine ⟨h.erase e, List.nodup_singleton e, ?_⟩
  intro a ha hb
  rw [List.mem_singleton] at hb
  subst hb
  exact ((h.mem_erase_iff).1 ha).1 rfl

theorem Subscribe_nodup (p : PubSubHandler) (topic peerIp : String) (peerPort : Int)
    (h : ∀ t, (p.subs.read t).Nodup) :
    ∀ t, ((Subscribe p topic peerIp peerPort).1.subs.read t).Nodup := by
  intro t
  rw [Subscribe_subs, SubsMap.read_set]
  by_cases ht : t = topic
  · simp only [ht, if_true]
    exact nodup_erase_concat (h topic) _
  · simp only [ht, if_false]
    exact h t

theorem Unsubscribe_nodup (p : PubSubHandler) (topic peerIp : String) (peerPort : Int)
    (h : ∀ t, (p.subs.read t).Nodup) :
    ∀ t, ((Unsubscribe p topic peerIp peerPort).1.subs.read t).Nodup := by
  intro t
  rw [Unsubscribe_fst]
  by_cases hmem : (⟨peerIp, peerPort⟩ : Peer) ∈ p.subs.read topic
  · simp only [hmem, if_true, SubsMap.read_set]
    by_cases ht : t = topic
    · simp only [ht, if_true]
      exact (h topic).erase _
    · simp only [ht, if_false]
      exact h t
  · simp only [hmem, if_false]
    exact h t

theorem Publish_fst (p : PubSubHandler) (topic : String) (message : Bytes) :
    (Publish p topic message).1 = p := by
  unfold Publish
  cases p.subs topic <;> rfl

theorem Op.apply_nodup (p : PubSubHandler) (op : Op) (h : ∀ t, (p.subs.read t).Nodup) :
    ∀ t, ((Op.apply p op).subs.read t).Nodup := by
  cases op with
  | subscribe topic peerIp peerPort => exact Subscribe_nodup p topic peerIp peerPort h
  | unsubscribe topic peerIp peerPort => exact Unsubscribe_nodup p topic peerIp peerPort h
  | publish topic message =>
    intro t
    simp only [Op.apply, Publish_fst]
    exact h t

theorem runOps_nodup_from (ops : List Op) :
    ∀ p : PubSubHandler, (∀ t, (p.subs.read t).Nodup) →
      ∀ t, ((runOps p ops).subs.read t).Nodup := by
  induction ops with
  | nil => intro p h; exact h
  | cons op rest ih =>
    intro p h
    exact ih (Op.apply p op) (Op.apply_nodup p op h)

theorem runOps_nodup (ops : List Op) (t : String) :
    ((runOps NewPubSubHandler ops).subs.read t).Nodup :=
  runOps_nodup_from ops NewPubSubHandler (fun _ => List.nodup_nil) t

/-- Removing the first occurrence of `e` does not change the entries other than `e`. -/
theorem filter_ne_erase (l : List Peer) (e : Peer) :
    (l.erase e).filter (fun x => decide (x ≠ e)) = l.filter (fun x => decide (x ≠ e)) := by
  induction l with
  | nil => rfl
  | cons x rest ih =>
    by_cases hx : x = e
    · subst hx
      simp
    · have hne : ¬ (x == e) = true := by simpa using hx
      rw [List.erase_cons_tail hne]
      simpa [List.filter_cons, hx] using ih

theorem not_mem_erase_of_nodup {l : List Peer} (h : l.Nodup) (e : Peer) : e ∉ l.erase e :=
  fun he => ((h.mem_erase_iff).1 he).1 rfl

theorem Op.apply_absent (T : String) (p : PubSubHandler) (op : Op)
    (hp : p.subs T = none) (hop : Op.isSubscribeOn T op = false) :
    (Op.apply p op).subs T = none := by
  cases op with
  | subscribe topic peerIp peerPort =>
    have hne : T ≠ topic := by
      intro h
      simp [Op.isSubscribeOn, h] at hop
    simp only [Op.apply, Subscribe_subs]
    rw [SubsMap.set_other _ _ _ _ hne]
    exact hp
  | unsubscribe topic peerIp peerPort =>
    simp only [Op.apply, Unsubscribe_fst]
    by_cases hmem : (⟨peerIp, peerPort⟩ : Peer) ∈ p.subs.read topic
    · have hne : T ≠ topic := by
        intro h
        rw [← h, SubsMap.read_none hp] at hmem
        cases hmem
      simp only [hmem, if_true]
      rw [SubsMap.set_other _ _ _ _ hne]
      exact hp
    · simp only [hmem, if_false]
      exact hp
  | publish topic message =>
    simp only [Op.apply, Publish_fst]
    exact hp

/-- A topic absent from the map stays absent as long as no `Subscribe` names it. -/
theorem runOps_absent (T : String) (ops : List Op) :
    ∀ p : PubSubHandler, p.subs T = none → (∀ op ∈ ops, Op.isSubscribeOn T op = false) →
      (runOps p ops).subs T = none := by
  induction ops with
  | nil => intro p hp _; exact hp
  | cons op rest ih =>
    intro p hp hops
    exact ih (Op.apply p op)
      (Op.apply_absent T p op hp (hops op (List.mem_cons_self _ _)))
      (fun o ho => hops o (List.mem_cons_of_mem _ ho))

/-! ## Claims -/

/-- C1: in every state reached from `NewPubSubHandler` by a finite sequence of
Subscribe/Unsubscribe/Publish calls, after `Subscribe(T, host, port)` the slice stored under `T`
holds the endpoint `(host, port)` exactly once, and as its last element. -/
theorem C1_subscribe_once_at_end (ops : List Op) (T host : String) (port : Int) :
    ∃ l, (Subscribe (runOps NewPubSubHandler ops) T host port).1.subs T = some l ∧
      l.count ⟨host, port⟩ = 1 ∧ l.getLast? = some ⟨host, port⟩ := by
  refine ⟨((runOps NewPubSubHandler ops).subs.read T).erase ⟨host, port⟩ ++ [⟨host, port⟩],
    ?_, ?_, ?_⟩
  · rw [Subscribe_subs, SubsMap.set_same]
  · have hnd := runOps_nodup ops T
    have hnot : (⟨host, port⟩ : Peer) ∉
        ((runOps NewPubSubHandler ops).subs.read T).erase ⟨host, port⟩ :=
      fun h => ((hnd.mem_erase_iff).1 h).1 rfl
    rw [List.count_append, List.count_eq_zero_of_not_mem hnot]
    simp
  · simp

/-- C2: in every state reached from `NewPubSubHandler` by a finite sequence of
Subscribe/Unsubscribe/Publish calls, no topic's slice holds, at two distinct positions, entries
with the same ip and the same port. -/
theorem C2_no_duplicates (ops : List Op) (t : String) (l : List Peer)
    (hl : (runOps NewPubSubHandler ops).subs t = some l)
    (i j : Nat) (a b : Peer) (hij : i ≠ j) (ha : l[i]? = some a) (hb : l[j]? = some b) :
    ¬ (a.ip = b.ip ∧ a.port = b.port) := by
  intro hab
  have hnd : l.Nodup := by
    have h := runOps_nodup ops t
    rwa [SubsMap.read_some hl] at h
  have heq : a = b := by
    cases a
    cases b
    simp only [Peer.mk.injEq]
    exact hab
  have hi : i < l.length := by
    rcases Nat.lt_or_ge i l.length with h | h
    · exact h
    · rw [List.getElem?_eq_none h] at ha
      cases ha
  exact hij (List.getElem?_inj hi hnd (by rw [ha, hb, heq]))

theorem C2_no_duplicates_witness :
    (runOps NewPubSubHandler
        [Op.subscribe "a" "h" 1, Op.subscribe "a" "h" 2, Op.subscribe "a" "h" 1]).subs "a" =
      some [⟨"h", 2⟩, ⟨"h", 1⟩] ∧
    ¬ ((⟨"h", 2⟩ : Peer).ip = (⟨"h", 1⟩ : Peer).ip ∧
        (⟨"h", 2⟩ : Peer).port = (⟨"h", 1⟩ : Peer).port) :=
  ⟨by decide,
   C2_no_duplicates
    [Op.subscribe "a" "h" 1, Op.subscribe "a" "h" 2, Op.subscribe "a" "h" 1] "a"
    [⟨"h", 2⟩, ⟨"h", 1⟩] (by decide) 0 1 ⟨"h", 2⟩ ⟨"h", 1⟩ (by decide) rfl rfl⟩

/-- C3: for every state, topic `T` and endpoint `E`, the slice of `T` after `Subscribe(T, E)`
is the slice before (empty when `T` has no entry) with the first entry equal to `E` removed and
`E` appended; the entries other than `E` are the same, in the same order, before and after; and
when `T` had no entry, the entry created holds exactly `[E]`. -/
theorem C3_subscribe_sequence (p : PubSubHandler) (T host : String) (port : Int) :
    (Subscribe p T host port).1.subs T =
        some ((p.subs.read T).erase ⟨host, port⟩ ++ [⟨host, port⟩]) ∧
    ((Subscribe p T host port).1.subs.read T).filter (fun e => decide (e ≠ ⟨host, port⟩)) =
        (p.subs.read T).filter (fun e => decide (e ≠ ⟨host, port⟩)) ∧
    (p.subs T = none → (Subscribe p T host port).1.subs T = some [⟨host, port⟩]) := by
  have hmain : (Subscribe p T host port).1.subs T =
      some ((p.subs.read T).erase ⟨host, port⟩ ++ [⟨host, port⟩]) := by
    rw [Subscribe_subs, SubsMap.set_same]
  refine ⟨hmain, ?_, ?_⟩
  · rw [SubsMap.read_some hmain, List.filter_append, filter_ne_erase]
    simp
  · intro hnone
    rw [hmain, SubsMap.read_none hnone]
    rfl

theorem C3_subscribe_sequence_witness :
    NewPubSubHandler.subs "t" = none ∧
    (Subscribe NewPubSubHandler "t" "h" 1).1.subs "t" = some [⟨"h", 1⟩] :=
  ⟨rfl, (C3_subscribe_sequence NewPubSubHandler "t" "h" 1).2.2 rfl⟩

/-- C4: when the slice of `T` holds an entry with ip `host` and port `port`,
`Unsubscribe(T, host, port)` returns that entry and the new slice of `T` is the old one with
exactly that entry (the first such) taken out, the rest in their original order; when `T` has no
entry or its slice holds no such entry, `Unsubscribe` returns nil and the handler state is
unchanged. -/
theorem C4_unsubscribe (p : PubSubHandler) (T host : String) (port : Int) :
    (∀ l, p.subs T = some l → (∃ e ∈ l, e.ip = host ∧ e.port = port) →
      (Unsubscribe p T host port).2 = some ⟨host, port⟩ ∧
      ∃ l1 l2, l = l1 ++ (⟨host, port⟩ : Peer) :: l2 ∧ (⟨host, port⟩ : Peer) ∉ l1 ∧
        (Unsubscribe p T host port).1.subs T = some (l1 ++ l2)) ∧
    ((p.subs T = none ∨ ∃ l, p.subs T = some l ∧ ¬ (∃ e ∈ l, e.ip = host ∧ e.port = port)) →
      Unsubscribe p T host port = (p, none)) := by
  refine ⟨?_, ?_⟩
  · intro l hl hex
    have hmem : (⟨host, port⟩ : Peer) ∈ l := by
      obtain ⟨e, he, hf⟩ := hex
      rwa [← (Peer.eq_mk_iff e host port).1 hf]
    obtain ⟨i, _, h2, h3, h4⟩ := scan_of_mem host port l 0 hmem
    rw [Unsubscribe_mem p T host port l hl hmem]
    refine ⟨rfl, l.take i, l.drop (i + 1), h2, h3, ?_⟩
    simp only [SubsMap.set_same, h4]
  · intro h
    rcases h with h | ⟨l, hl, hno⟩
    · exact Unsubscribe_absent p T host port h
    · apply Unsubscribe_not_mem p T host port l hl
      intro hmem
      exact hno ⟨_, hmem, rfl, rfl⟩

theorem C4_unsubscribe_witness :
    ((Subscribe (Subscribe NewPubSubHandler "t" "a" 1).1 "t" "b" 2).1.subs "t" =
        some [⟨"a", 1⟩, ⟨"b", 2⟩] ∧
      (∃ e ∈ [(⟨"a", 1⟩ : Peer), ⟨"b", 2⟩], e.ip = "a" ∧ e.port = 1) ∧
      (Unsubscribe (Subscribe (Subscribe NewPubSubHandler "t" "a" 1).1 "t" "b" 2).1
        "t" "a" 1).2 = some ⟨"a", 1⟩) ∧
    (NewPubSubHandler.subs "t" = none ∧
      Unsubscribe NewPubSubHandler "t" "a" 1 = (NewPubSubHandler, none)) :=
  ⟨⟨by decide, ⟨⟨"a", 1⟩, by decide, rfl, rfl⟩,
    ((C4_unsubscribe (Subscribe (Subscribe NewPubSubHandler "t" "a" 1).1 "t" "b" 2).1
      "t" "a" 1).1 [⟨"a", 1⟩, ⟨"b", 2⟩] (by decide) ⟨⟨"a", 1⟩, by decide, rfl, rfl⟩).1⟩,
   ⟨rfl, (C4_unsubscribe NewPubSubHandler "t" "a" 1).2 (Or.inl rfl)⟩⟩

/-- C5: in every state reached from `NewPubSubHandler` by a finite sequence of calls,
`Subscribe(T, E)` performed twice in a row leaves the same handler state as `Subscribe(T, E)`
performed once; on a fresh handler the two calls leave `T` with the slice `[E]`. -/
theorem C5_resubscribe_idempotent (ops : List Op) (T host : String) (port : Int) :
    (Subscribe (Subscribe (runOps NewPubSubHandler ops) T host port).1 T host port).1 =
        (Subscribe (runOps NewPubSubHandler ops) T host port).1 ∧
    (Subscribe (Subscribe NewPubSubHandler T host port).1 T host port).1.subs T =
        some [⟨host, port⟩] := by
  refine ⟨?_, ?_⟩
  · apply PubSubHandler.eq_of_subs
    intro t
    have hnot := not_mem_erase_of_nodup (runOps_nodup ops T) ⟨host, port⟩
    rw [Subscribe_subs, Subscribe_subs, SubsMap.set_set, SubsMap.read_set, if_pos rfl,
      List.erase_append_right _ hnot]
    simp
  · rw [Subscribe_subs, Subscribe_subs, SubsMap.set_set, SubsMap.read_set, if_pos rfl]
    simp [SubsMap.read, NewPubSubHandler, SubsMap.set]

/-- C6: in every state reached from `NewPubSubHandler` by a finite sequence of calls, after
`Subscribe(T, E)` the call `Unsubscribe(T, E)` returns the entry `E` and leaves a slice of `T`
without `E`; a second `Unsubscribe(T, E)` returns nil and leaves the handler state unchanged. -/
theorem C6_subscribe_then_unsubscribe (ops : List Op) (T host : String) (port : Int) :
    (Unsubscribe (Subscribe (runOps NewPubSubHandler ops) T host port).1 T host port).2 =
        some ⟨host, port⟩ ∧
    (∃ l, (Unsubscribe (Subscribe (runOps NewPubSubHandler ops) T host port).1
        T host port).1.subs T = some l ∧ (⟨host, port⟩ : Peer) ∉ l) ∧
    Unsubscribe (Unsubscribe (Subscribe (runOps NewPubSubHandler ops) T host port).1
        T host port).1 T host port =
      ((Unsubscribe (Subscribe (runOps NewPubSubHandler ops) T host port).1 T host port).1,
        none) := by
  have hnot := not_mem_erase_of_nodup (runOps_nodup ops T) ⟨host, port⟩
  have hsub : (Subscribe (runOps NewPubSubHandler ops) T host port).1.subs T =
      some (((runOps NewPubSubHandler ops).subs.read T).erase ⟨host, port⟩ ++
        [⟨host, port⟩]) := by
    rw [Subscribe_subs, SubsMap.set_same]
  have hun := Unsubscribe_mem _ T host port _ hsub (by simp)
  rw [List.erase_append_right _ hnot] at hun
  simp only [List.erase_cons_head, List.append_nil] at hun
  rw [hun]
  refine ⟨rfl, ⟨_, SubsMap.set_same _ _ _, hnot⟩, ?_⟩
  exact Unsubscribe_not_mem _ T host port _ (SubsMap.set_same _ _ _) hnot

/-- C7: `Publish(T, msg)` returns an error exactly when `T` has no entry in the map; then
nothing is dispatched and the error text holds "could not find topic " followed by `T`; and in
every state reached from a fresh handler by calls none of which is a `Subscribe` on `T`,
`Publish(T, msg)` returns an error. -/
theorem C7_publish_error (p : PubSubHandler) (T : String) (msg : Bytes) :
    ((Publish p T msg).2.1.isSome = true ↔ p.subs T = none) ∧
    (p.subs T = none →
      (Publish p T msg).2.2 = [] ∧
      ∃ pre, (Publish p T msg).2.1 = some (pre ++ "could not find topic " ++ T)) ∧
    (∀ ops : List Op, (∀ op ∈ ops, Op.isSubscribeOn T op = false) →
      (Publish (runOps NewPubSubHandler ops) T msg).2.1.isSome = true) := by
  refine ⟨?_, ?_, ?_⟩
  · cases h : p.subs T <;> simp [Publish, h]
  · intro h
    refine ⟨by simp [Publish, h], "Publish: ", ?_⟩
    simp only [Publish, h]
    rfl
  · intro ops hops
    have h := runOps_absent T ops NewPubSubHandler rfl hops
    simp [Publish, h]

theorem C7_publish_error_witness :
    (NewPubSubHandler.subs "t" = none ∧
      (Publish NewPubSubHandler "t" [1]).2.2 = []) ∧
    ((∀ op ∈ [Op.subscribe "a" "h" 1, Op.unsubscribe "t" "h" 1, Op.publish "t" []],
        Op.isSubscribeOn "t" op = false) ∧
      (Publish (runOps NewPubSubHandler
        [Op.subscribe "a" "h" 1, Op.unsubscribe "t" "h" 1, Op.publish "t" []])
        "t" [1]).2.1.isSome = true) :=
  ⟨⟨rfl, ((C7_publish_error NewPubSubHandler "t" [1]).2.1 rfl).1⟩,
   ⟨by decide,
    (C7_publish_error NewPubSubHandler "t" [1]).2.2
      [Op.subscribe "a" "h" 1, Op.unsubscribe "t" "h" 1, Op.publish "t" []] (by decide)⟩⟩

/-- C8: from a fresh handler, `Subscribe(T, E)` then `Unsubscribe(T, E)` leaves `T` present
with an empty slice; a following `Publish(T, msg)` returns a nil error and dispatches nothing,
whereas `Publish(T, msg)` on the fresh handler returns the unknown-topic error. -/
theorem C8_drained_topic (T host : String) (port : Int) (msg : Bytes) :
    (Unsubscribe (Subscribe NewPubSubHandler T host port).1 T host port).1.subs T = some [] ∧
    (Publish (Unsubscribe (Subscribe NewPubSubHandler T host port).1 T host port).1
        T msg).2 = (none, []) ∧
    (Publish NewPubSubHandler T msg).2 =
        (some ("Publish: could not find topic " ++ T), []) := by
  have hsub : (Subscribe NewPubSubHandler T host port).1.subs T = some [⟨host, port⟩] := by
    rw [Subscribe_subs, SubsMap.set_same]
    rfl
  have hun := Unsubscribe_mem _ T host port _ hsub (by simp)
  simp only [List.erase_cons_head] at hun
  have hdrained : (Unsubscribe (Subscribe NewPubSubHandler T host port).1
      T host port).1.subs T = some [] := by
    rw [hun]
    exact SubsMap.set_same _ _ _
  refine ⟨hdrained, ?_, ?_⟩
  · simp [Publish, hdrained]
  · rfl

/-- C9: for a topic `T` present in the map, `Publish(T, msg)` dispatches exactly one
`WriteData` per entry of the slice of `T`, in slice order, each for that entry's endpoint with
topic `T` and the bytes `msg` as request body; an endpoint that is not in the slice of `T`
(whatever other topics hold it) gets no delivery. -/
theorem C9_publish_fanout (p : PubSubHandler) (T : String) (l : List Peer) (msg : Bytes)
    (h : p.subs T = some l) :
    (Publish p T msg).2.2 = l.map (fun e => Delivery.mk e T msg) ∧
    (Publish p T msg).2.2.length = l.length ∧
    (Publish p T msg).2.2.map Delivery.peer = l ∧
    (∀ d ∈ (Publish p T msg).2.2, d.topic = T ∧ d.message = msg ∧
      (WriteData.request d.peer d.topic d.message).body = msg) ∧
    (∀ E : Peer, E ∉ l → ∀ d ∈ (Publish p T msg).2.2, d.peer ≠ E) := by
  have hd : (Publish p T msg).2.2 = l.map (fun e => Delivery.mk e T msg) := by
    simp [Publish, h]
  rw [hd]
  refine ⟨rfl, by simp, ?_, ?_, ?_⟩
  · rw [List.map_map]
    exact List.map_id l
  · intro d hmem
    obtain ⟨e, _, rfl⟩ := List.mem_map.1 hmem
    exact ⟨rfl, rfl, rfl⟩
  · intro E hE d hmem heq
    obtain ⟨e, he, rfl⟩ := List.mem_map.1 hmem
    exact hE (heq ▸ he)

theorem C9_publish_fanout_witness :
    (Subscribe (Subscribe (Subscribe NewPubSubHandler "weather" "127.0.0.1" 9001).1
        "weather" "127.0.0.1" 9002).1 "news" "10.0.0.1" 80).1.subs "weather" =
      some [⟨"127.0.0.1", 9001⟩, ⟨"127.0.0.1", 9002⟩] ∧
    (Publish (Subscribe (Subscribe (Subscribe NewPubSubHandler "weather" "127.0.0.1" 9001).1
        "weather" "127.0.0.1" 9002).1 "news" "10.0.0.1" 80).1
        "weather" [114, 97, 105, 110]).2.2 =
      [⟨⟨"127.0.0.1", 9001⟩, "weather", [114, 97, 105, 110]⟩,
       ⟨⟨"127.0.0.1", 9002⟩, "weather", [114, 97, 105, 110]⟩] :=
  ⟨by decide,
   (C9_publish_fanout (Subscribe (Subscribe (Subscribe NewPubSubHandler
      "weather" "127.0.0.1" 9001).1 "weather" "127.0.0.1" 9002).1 "news" "10.0.0.1" 80).1
      "weather" [⟨"127.0.0.1", 9001⟩, ⟨"127.0.0.1", 9002⟩] [114, 97, 105, 110]
      (by decide)).1⟩

/-! ## Auxiliary lemmas for the HTTP adapters -/

theorem Atoi_eq_some_iff (s : String) (n : Int) :
    Atoi s = some n ↔
      parseDecimal s = some n ∧ -(2 : Int) ^ 63 ≤ n ∧ n < (2 : Int) ^ 63 := by
  unfold Atoi
  cases h : parseDecimal s with
  | none => simp
  | some v =>
    by_cases hr : -(2 : Int) ^ 63 ≤ v ∧ v < (2 : Int) ^ 63
    · simp only [hr, and_self, if_true, Option.some.injEq]
      constructor
      · intro hv
        subst hv
        exact ⟨rfl, hr⟩
      · intro hv
        exact hv.1
    · simp only [hr, if_false, Option.some.injEq]
      constructor
      · intro hv
        cases hv
      · intro hv
        exact absurd (hv.1 ▸ hv.2) hr

theorem Atoi_eq_none_iff (s : String) :
    Atoi s = none ↔
      parseDecimal s = none ∨
        ∃ v, parseDecimal s = some v ∧ ¬ (-(2 : Int) ^ 63 ≤ v ∧ v < (2 : Int) ^ 63) := by
  unfold Atoi
  cases h : parseDecimal s with
  | none => simp
  | some v =>
    by_cases hr : -(2 : Int) ^ 63 ≤ v ∧ v < (2 : Int) ^ 63
    · simp [hr]
    · simp [hr]

theorem Atoi_empty : Atoi "" = none := by decide

theorem SubscribeHandler_accept (p : PubSubHandler) (r : Request) (n : Int)
    (ht : r.query.Get "topic" ≠ "") (hi : r.query.Get "peerIp" ≠ "")
    (hn : Atoi (r.query.Get "peerPort") = some n) :
    SubscribeHandler p r =
      ((Subscribe p (r.query.Get "topic") (r.query.Get "peerIp") n).1, 200) := by
  have hp : r.query.Get "peerPort" ≠ "" := by
    intro h
    rw [h, Atoi_empty] at hn
    cases hn
  simp [SubscribeHandler, ht, hi, hp, hn]

theorem SubscribeHandler_reject (p : PubSubHandler) (r : Request)
    (h : r.query.Get "topic" = "" ∨ r.query.Get "peerIp" = "" ∨
      r.query.Get "peerPort" = "" ∨ Atoi (r.query.Get "peerPort") = none) :
    SubscribeHandler p r = (p, 400) := by
  unfold SubscribeHandler
  by_cases ht : r.query.Get "topic" = ""
  · simp [ht]
  · by_cases hi : r.query.Get "peerIp" = ""
    · simp [ht, hi]
    · by_cases hp : r.query.Get "peerPort" = ""
      · simp [ht, hi, hp]
      · rcases h with h | h | h | h
        · exact absurd h ht
        · exact absurd h hi
        · exact absurd h hp
        · simp [ht, hi, hp, h]

theorem Subscribe_getLast (p : PubSubHandler) (topic peerIp : String) (peerPort : Int) :
    ∃ l, (Subscribe p topic peerIp peerPort).1.subs topic = some l ∧
      l.getLast? = some ⟨peerIp, peerPort⟩ := by
  refine ⟨(p.subs.read topic).erase ⟨peerIp, peerPort⟩ ++ [⟨peerIp, peerPort⟩], ?_, ?_⟩
  · rw [Subscribe_subs, SubsMap.set_same]
  · simp

theorem PublishHandler_status (p : PubSubHandler) (r : Request) (b : Bytes)
    (hb : r.body = Except.ok b) :
    (PublishHandler p r).2.1 =
      if r.query.Get "topic" ≠ "" ∧ (p.subs (r.query.Get "topic")).isSome = true then 200
      else 400 := by
  unfold PublishHandler
  by_cases ht : r.query.Get "topic" = ""
  · simp [ht]
  · cases hs : p.subs (r.query.Get "topic") <;> simp [ht, hb, Publish, hs]

/-! ## Claims on the HTTP adapters -/

/-- C11 as stated fails: with topic "t", peerIp "h" and peerPort "0" (and likewise "-1" and
"70000"), all parsing to integers outside 1..65535, the subscribe handler answers 200 and
stores the endpoint with that port. -/
theorem C11_port_range_counterexample :
    (Atoi "0" = some 0 ∧
      (SubscribeHandler NewPubSubHandler
        ⟨Values.ofPairs [("topic", "t"), ("peerIp", "h"), ("peerPort", "0")],
          Except.ok []⟩).2 = 200 ∧
      (SubscribeHandler NewPubSubHandler
        ⟨Values.ofPairs [("topic", "t"), ("peerIp", "h"), ("peerPort", "0")],
          Except.ok []⟩).1.subs "t" = some [⟨"h", 0⟩]) ∧
    (Atoi "-1" = some (-1) ∧
      (SubscribeHandler NewPubSubHandler
        ⟨Values.ofPairs [("topic", "t"), ("peerIp", "h"), ("peerPort", "-1")],
          Except.ok []⟩).2 = 200 ∧
      (SubscribeHandler NewPubSubHandler
        ⟨Values.ofPairs [("topic", "t"), ("peerIp", "h"), ("peerPort", "-1")],
          Except.ok []⟩).1.subs "t" = some [⟨"h", -1⟩]) ∧
    (Atoi "70000" = some 70000 ∧
      (SubscribeHandler NewPubSubHandler
        ⟨Values.ofPairs [("topic", "t"), ("peerIp", "h"), ("peerPort", "70000")],
          Except.ok []⟩).2 = 200 ∧
      (SubscribeHandler NewPubSubHandler
        ⟨Values.ofPairs [("topic", "t"), ("peerIp", "h"), ("peerPort", "70000")],
          Except.ok []⟩).1.subs "t" = some [⟨"h", 70000⟩]) := by
  decide

/-- C11, amended: for a /subscribe request with non-empty topic and peerIp whose peerPort
parses as an integer outside 1..65535, the handler applies no range check: it answers 200, the
handler state afterwards is that of `Subscribe(topic, peerIp, port)`, and the endpoint with the
out-of-range port is stored at the end of the topic's slice. -/
theorem C11_port_range_not_checked (p : PubSubHandler) (r : Request) (n : Int)
    (ht : r.query.Get "topic" ≠ "") (hi : r.query.Get "peerIp" ≠ "")
    (hn : Atoi (r.query.Get "peerPort") = some n) (_hr : n < 1 ∨ 65535 < n) :
    SubscribeHandler p r =
        ((Subscribe p (r.query.Get "topic") (r.query.Get "peerIp") n).1, 200) ∧
    ∃ l, (SubscribeHandler p r).1.subs (r.query.Get "topic") = some l ∧
      l.getLast? = some ⟨r.query.Get "peerIp", n⟩ := by
  have h := SubscribeHandler_accept p r n ht hi hn
  refine ⟨h, ?_⟩
  rw [h]
  exact Subscribe_getLast p _ _ n

theorem C11_port_range_not_checked_witness :
    (Values.ofPairs [("topic", "t"), ("peerIp", "h"), ("peerPort", "70000")]).Get "topic" ≠ "" ∧
    (Values.ofPairs [("topic", "t"), ("peerIp", "h"), ("peerPort", "70000")]).Get "peerIp" ≠ "" ∧
    Atoi ((Values.ofPairs [("topic", "t"), ("peerIp", "h"), ("peerPort", "70000")]).Get
      "peerPort") = some 70000 ∧
    ((70000 : Int) < 1 ∨ 65535 < (70000 : Int)) ∧
    SubscribeHandler NewPubSubHandler
        ⟨Values.ofPairs [("topic", "t"), ("peerIp", "h"), ("peerPort", "70000")],
          Except.ok []⟩ =
      ((Subscribe NewPubSubHandler "t" "h" 70000).1, 200) :=
  ⟨by decide, by decide, by decide, by decide,
   (C11_port_range_not_checked NewPubSubHandler
      ⟨Values.ofPairs [("topic", "t"), ("peerIp", "h"), ("peerPort", "70000")], Except.ok []⟩
      70000 (by decide) (by decide) (by decide) (by decide)).1⟩

/-- C12 as stated fails: with topic "t", peerIp "h" and peerPort "99999999999999999999", all
three non-empty and the port a decimal integer string, the subscribe handler answers 400 and
leaves the map untouched, because the value does not fit the 64-bit `int`. -/
theorem C12_subscribe_handler_counterexample :
    (Values.ofPairs [("topic", "t"), ("peerIp", "h"),
        ("peerPort", "99999999999999999999")]).Get "topic" ≠ "" ∧
    (Values.ofPairs [("topic", "t"), ("peerIp", "h"),
        ("peerPort", "99999999999999999999")]).Get "peerIp" ≠ "" ∧
    (Values.ofPairs [("topic", "t"), ("peerIp", "h"),
        ("peerPort", "99999999999999999999")]).Get "peerPort" ≠ "" ∧
    parseDecimal "99999999999999999999" = some 99999999999999999999 ∧
    (SubscribeHandler NewPubSubHandler
        ⟨Values.ofPairs [("topic", "t"), ("peerIp", "h"),
          ("peerPort", "99999999999999999999")], Except.ok []⟩).2 = 400 ∧
    (SubscribeHandler NewPubSubHandler
        ⟨Values.ofPairs [("topic", "t"), ("peerIp", "h"),
          ("peerPort", "99999999999999999999")], Except.ok []⟩).1.subs "t" = none := by
  decide

/-- C12, amended: the subscribe handler answers 400 and leaves the handler state unchanged
when topic, peerIp or peerPort is missing or empty, when peerPort is not a decimal integer
string, or when its value does not fit the 64-bit `int`; otherwise it answers 200 and the state
afterwards is that of `Subscribe(topic, peerIp, parsed peerPort)`. -/
theorem C12_subscribe_handler (p : PubSubHandler) (r : Request) :
    ((r.query.Get "topic" = "" ∨ r.query.Get "peerIp" = "" ∨ r.query.Get "peerPort" = "" ∨
        parseDecimal (r.query.Get "peerPort") = none ∨
        (∃ v, parseDecimal (r.query.Get "peerPort") = some v ∧
          ¬ (-(2 : Int) ^ 63 ≤ v ∧ v < (2 : Int) ^ 63))) →
      SubscribeHandler p r = (p, 400)) ∧
    (∀ v : Int, r.query.Get "topic" ≠ "" → r.query.Get "peerIp" ≠ "" →
        r.query.Get "peerPort" ≠ "" → parseDecimal (r.query.Get "peerPort") = some v →
        (-(2 : Int) ^ 63 ≤ v ∧ v < (2 : Int) ^ 63) →
      SubscribeHandler p r =
        ((Subscribe p (r.query.Get "topic") (r.query.Get "peerIp") v).1, 200)) := by
  refine ⟨?_, ?_⟩
  · intro h
    apply SubscribeHandler_reject
    rcases h with h | h | h | h | h
    · exact Or.inl h
    · exact Or.inr (Or.inl h)
    · exact Or.inr (Or.inr (Or.inl h))
    · exact Or.inr (Or.inr (Or.inr ((Atoi_eq_none_iff _).2 (Or.inl h))))
    · exact Or.inr (Or.inr (Or.inr ((Atoi_eq_none_iff _).2 (Or.inr h))))
  · intro v ht hi _ hv hr
    exact SubscribeHandler_accept p r v ht hi ((Atoi_eq_some_iff _ _).2 ⟨hv, hr⟩)

theorem C12_subscribe_handler_witness :
    (parseDecimal ((Values.ofPairs [("topic", "t"), ("peerIp", "h"),
        ("peerPort", "9x")]).Get "peerPort") = none ∧
      SubscribeHandler NewPubSubHandler
          ⟨Values.ofPairs [("topic", "t"), ("peerIp", "h"), ("peerPort", "9x")],
            Except.ok []⟩ = (NewPubSubHandler, 400)) ∧
    (parseDecimal ((Values.ofPairs [("topic", "t"), ("peerIp", "h"),
        ("peerPort", "9001")]).Get "peerPort") = some 9001 ∧
      SubscribeHandler NewPubSubHandler
          ⟨Values.ofPairs [("topic", "t"), ("peerIp", "h"), ("peerPort", "9001")],
            Except.ok []⟩ = ((Subscribe NewPubSubHandler "t" "h" 9001).1, 200)) :=
  ⟨⟨by decide,
    (C12_subscribe_handler NewPubSubHandler
      ⟨Values.ofPairs [("topic", "t"), ("peerIp", "h"), ("peerPort", "9x")],
        Except.ok []⟩).1 (Or.inr (Or.inr (Or.inr (Or.inl (by decide)))))⟩,
   ⟨by decide,
    (C12_subscribe_handler NewPubSubHandler
      ⟨Values.ofPairs [("topic", "t"), ("peerIp", "h"), ("peerPort", "9001")],
        Except.ok []⟩).2 9001 (by decide) (by decide) (by decide) (by decide) (by decide)⟩⟩

/-- C13: for a /publish request whose body is readable, the handler answers 200 exactly when
the topic parameter is non-empty and the topic has an entry in the map, and 400 otherwise; two
handler states that agree on whether the topic has an entry get the same status, whatever the
number of subscribers. -/
theorem C13_publish_handler_status (p : PubSubHandler) (r : Request) (b : Bytes)
    (hb : r.body = Except.ok b) :
    ((PublishHandler p r).2.1 = 200 ↔
      (r.query.Get "topic" ≠ "" ∧ p.subs (r.query.Get "topic") ≠ none)) ∧
    (¬ (r.query.Get "topic" ≠ "" ∧ p.subs (r.query.Get "topic") ≠ none) →
      (PublishHandler p r).2.1 = 400) ∧
    (∀ q : PubSubHandler,
      (q.subs (r.query.Get "topic")).isSome = (p.subs (r.query.Get "topic")).isSome →
      (PublishHandler q r).2.1 = (PublishHandler p r).2.1) := by
  have hp := PublishHandler_status p r b hb
  refine ⟨?_, ?_, ?_⟩
  · rw [hp]
    by_cases ht : r.query.Get "topic" = ""
    · simp [ht]
    · cases hs : p.subs (r.query.Get "topic") <;> simp [ht]
  · intro h
    rw [hp]
    by_cases ht : r.query.Get "topic" = ""
    · simp [ht]
    · cases hs : p.subs (r.query.Get "topic")
      · simp
      · exact absurd ⟨ht, by simp [hs]⟩ h
  · intro q hq
    rw [hp, PublishHandler_status q r b hb, hq]

theorem C13_publish_handler_status_witness :
    (Except.ok [1] : Except String Bytes) = Except.ok [1] ∧
    (PublishHandler (Subscribe NewPubSubHandler "t" "h" 1).1
        ⟨Values.ofPairs [("topic", "t")], Except.ok [1]⟩).2.1 = 200 ∧
    (PublishHandler NewPubSubHandler
        ⟨Values.ofPairs [("topic", "t")], Except.ok [1]⟩).2.1 = 400 ∧
    (PublishHandler (Unsubscribe (Subscribe NewPubSubHandler "t" "h" 1).1 "t" "h" 1).1
        ⟨Values.ofPairs [("topic", "t")], Except.ok [1]⟩).2.1 =
      (PublishHandler (Subscribe NewPubSubHandler "t" "h" 1).1
        ⟨Values.ofPairs [("topic", "t")], Except.ok [1]⟩).2.1 :=
  ⟨rfl,
   (C13_publish_handler_status (Subscribe NewPubSubHandler "t" "h" 1).1
      ⟨Values.ofPairs [("topic", "t")], Except.ok [1]⟩ [1] rfl).1.2 (by decide),
   (C13_publish_handler_status NewPubSubHandler
      ⟨Values.ofPairs [("topic", "t")], Except.ok [1]⟩ [1] rfl).2.1 (by decide),
   (C13_publish_handler_status (Subscribe NewPubSubHandler "t" "h" 1).1
      ⟨Values.ofPairs [("topic", "t")], Except.ok [1]⟩ [1] rfl).2.2
      (Unsubscribe (Subscribe NewPubSubHandler "t" "h" 1).1 "t" "h" 1).1 (by decide)⟩

/-! ## Frame and persistence lemmas -/

theorem WriteData_fst (p : PubSubHandler) (peer : Peer) (topic : String) (message : Bytes)
    (post : PostRequest → PostResult) : (WriteData p peer topic message post).1 = p := by
  unfold WriteData
  cases post (WriteData.request peer topic message) with
  | failed err => rfl
  | response statusCode =>
    by_cases h : statusCode = 200 <;> simp [h]

theorem deliverAll_fst (net : Nat → PostRequest → PostResult) (ds : List Delivery) :
    ∀ (i : Nat) (p : PubSubHandler), (deliverAll net i p ds).1 = p := by
  induction ds with
  | nil => intro i p; rfl
  | cons d rest ih =>
    intro i p
    simp only [deliverAll]
    rw [ih, WriteData_fst]

theorem Subscribe_subs_other (p : PubSubHandler) (topic peerIp : String) (peerPort : Int)
    (t : String) (h : t ≠ topic) :
    (Subscribe p topic peerIp peerPort).1.subs t = p.subs t := by
  rw [Subscribe_subs, SubsMap.set_other _ _ _ _ h]

theorem Unsubscribe_subs_other (p : PubSubHandler) (topic peerIp : String) (peerPort : Int)
    (t : String) (h : t ≠ topic) :
    (Unsubscribe p topic peerIp peerPort).1.subs t = p.subs t := by
  rw [Unsubscribe_fst]
  by_cases hmem : (⟨peerIp, peerPort⟩ : Peer) ∈ p.subs.read topic
  · simp only [hmem, if_true]
    exact SubsMap.set_other _ _ _ _ h
  · simp only [hmem, if_false]

theorem Unsubscribe_present (p : PubSubHandler) (topic peerIp : String) (peerPort : Int)
    (t : String) (h : (p.subs t).isSome = true) :
    ((Unsubscribe p topic peerIp peerPort).1.subs t).isSome = true := by
  by_cases ht : t = topic
  · rw [Unsubscribe_fst]
    by_cases hmem : (⟨peerIp, peerPort⟩ : Peer) ∈ p.subs.read topic
    · simp only [hmem, if_true, ht, SubsMap.set_same, Option.isSome_some]
    · simp only [hmem, if_false]
      exact h
  · rw [Unsubscribe_subs_other p topic peerIp peerPort t ht]
    exact h

theorem Subscribe_present (p : PubSubHandler) (topic peerIp : String) (peerPort : Int)
    (t : String) (h : (p.subs t).isSome = true) :
    ((Subscribe p topic peerIp peerPort).1.subs t).isSome = true := by
  by_cases ht : t = topic
  · rw [Subscribe_subs, ht, SubsMap.set_same]
    rfl
  · rw [Subscribe_subs_other p topic peerIp peerPort t ht]
    exact h

theorem Op.apply_present (p : PubSubHandler) (op : Op) (t : String)
    (h : (p.subs t).isSome = true) : ((Op.apply p op).subs t).isSome = true := by
  cases op with
  | subscribe topic peerIp peerPort => exact Subscribe_present p topic peerIp peerPort t h
  | unsubscribe topic peerIp peerPort => exact Unsubscribe_present p topic peerIp peerPort t h
  | publish topic message =>
    simp only [Op.apply, Publish_fst]
    exact h

theorem runOps_present (t : String) (ops : List Op) :
    ∀ p : PubSubHandler, (p.subs t).isSome = true → ((runOps p ops).subs t).isSome = true := by
  induction ops with
  | nil => intro p h; exact h
  | cons op rest ih =>
    intro p h
    exact ih (Op.apply p op) (Op.apply_present p op t h)

/-! ## Frame and persistence claims -/

/-- C14: `Publish` never changes the map: the handler state after `Publish(T, msg)` is the
state before, whether it fails or succeeds, and so is the state after every dispatched delivery
has run, whatever the network answers (transport error, non-200 status or 200); a `WriteData`
run against any later state leaves that state as it is. -/
theorem C14_publish_frame (p : PubSubHandler) (T : String) (msg : Bytes)
    (net : Nat → PostRequest → PostResult) :
    (Publish p T msg).1 = p ∧
    (deliverAll net 0 (Publish p T msg).1 (Publish p T msg).2.2).1 = p ∧
    (∀ t, (deliverAll net 0 (Publish p T msg).1 (Publish p T msg).2.2).1.subs t = p.subs t) ∧
    (∀ (q : PubSubHandler) (peer : Peer) (i : Nat),
      (WriteData q peer T msg (net i)).1 = q) := by
  have h : (deliverAll net 0 (Publish p T msg).1 (Publish p T msg).2.2).1 = p := by
    rw [deliverAll_fst, Publish_fst]
  refine ⟨Publish_fst p T msg, h, ?_, ?_⟩
  · intro t
    rw [h]
  · intro q peer i
    exact WriteData_fst q peer T msg (net i)

/-- C15: a topic that has an entry in the map before a Subscribe, Unsubscribe or Publish call
still has one after it; hence once `Subscribe(T, _)` has been performed, `Publish(T, msg)`
returns a nil error after any further sequence of calls. -/
theorem C15_once_known_always_known (p : PubSubHandler) (op : Op) (T : String) :
    ((p.subs T).isSome = true → ((Op.apply p op).subs T).isSome = true) ∧
    (∀ (ops1 ops2 : List Op) (host : String) (port : Int) (msg : Bytes),
      (Publish (runOps (Subscribe (runOps NewPubSubHandler ops1) T host port).1 ops2)
        T msg).2.1 = none) := by
  refine ⟨Op.apply_present p op T, ?_⟩
  intro ops1 ops2 host port msg
  have h1 : ((Subscribe (runOps NewPubSubHandler ops1) T host port).1.subs T).isSome = true := by
    rw [Subscribe_subs, SubsMap.set_same]
    rfl
  have h2 := runOps_present T ops2 _ h1
  cases hs : (runOps (Subscribe (runOps NewPubSubHandler ops1) T host port).1 ops2).subs T with
  | none => simp [hs] at h2
  | some l => simp [Publish, hs]

theorem C15_once_known_always_known_witness :
    ((Subscribe NewPubSubHandler "t" "h" 1).1.subs "t").isSome = true ∧
    ((Op.apply (Subscribe NewPubSubHandler "t" "h" 1).1 (Op.unsubscribe "t" "h" 1)).subs
      "t").isSome = true :=
  ⟨by decide,
   (C15_once_known_always_known (Subscribe NewPubSubHandler "t" "h" 1).1
      (Op.unsubscribe "t" "h" 1) "t").1 (by decide)⟩

/-- C16: for every state, topic, host and port, with no validation of any of them,
`Subscribe` returns a nil error and a non-nil endpoint with that host as ip and that port, and
the returned endpoint is the last entry of the topic's slice. -/
theorem C16_subscribe_always_succeeds (p : PubSubHandler) (T host : String) (port : Int) :
    (Subscribe p T host port).2.2 = none ∧
    ∃ e : Peer, (Subscribe p T host port).2.1 = some e ∧ e.ip = host ∧ e.port = port ∧
      ∃ l, (Subscribe p T host port).1.subs T = some l ∧ l.getLast? = some e := by
  refine ⟨rfl, ⟨host, port⟩, rfl, rfl, rfl, ?_⟩
  exact Subscribe_getLast p T host port

/-- C18: for topics `T'` and `T` with `T'` different from `T`, neither `Subscribe(T, E)` nor
`Unsubscribe(T, E)` changes what the map holds under `T'`: neither whether there is an entry
nor the slice stored. -/
theorem C18_topic_isolation (p : PubSubHandler) (T T' host : String) (port : Int)
    (h : T' ≠ T) :
    (Subscribe p T host port).1.subs T' = p.subs T' ∧
    (Unsubscribe p T host port).1.subs T' = p.subs T' :=
  ⟨Subscribe_subs_other p T host port T' h, Unsubscribe_subs_other p T host port T' h⟩

theorem C18_topic_isolation_witness :
    "b" ≠ "a" ∧
    (Subscribe (Subscribe NewPubSubHandler "b" "h" 1).1 "a" "h" 1).1.subs "b" =
      (Subscribe NewPubSubHandler "b" "h" 1).1.subs "b" ∧
    (Unsubscribe (Subscribe NewPubSubHandler "b" "h" 1).1 "a" "h" 1).1.subs "b" =
      (Subscribe NewPubSubHandler "b" "h" 1).1.subs "b" :=
  ⟨by decide,
   C18_topic_isolation (Subscribe NewPubSubHandler "b" "h" 1).1 "a" "b" "h" 1 (by decide)⟩

/-! ## Membership along a sequence of calls -/

theorem mem_after_subscribe (p : PubSubHandler) (T host : String) (port : Int) :
    (⟨host, port⟩ : Peer) ∈ (Op.apply p (Op.subscribe T host port)).subs.read T := by
  simp only [Op.apply, Subscribe_subs, SubsMap.read_set, if_true]
  simp

theorem not_mem_after_unsubscribe (p : PubSubHandler) (T host : String) (port : Int)
    (hnd : (p.subs.read T).Nodup) :
    (⟨host, port⟩ : Peer) ∉ (Op.apply p (Op.unsubscribe T host port)).subs.read T := by
  simp only [Op.apply, Unsubscribe_fst]
  by_cases hmem : (⟨host, port⟩ : Peer) ∈ p.subs.read T
  · rw [if_pos hmem]
    simp only [SubsMap.read_set, if_true]
    exact not_mem_erase_of_nodup hnd _
  · rw [if_neg hmem]
    exact hmem

theorem mem_after_other (p : PubSubHandler) (T host : String) (port : Int) (op : Op)
    (hs : op ≠ Op.subscribe T host port) (hu : op ≠ Op.unsubscribe T host port) :
    (⟨host, port⟩ : Peer) ∈ (Op.apply p op).subs.read T ↔
      (⟨host, port⟩ : Peer) ∈ p.subs.read T := by
  cases op with
  | subscribe topic peerIp peerPort =>
    simp only [Op.apply, Subscribe_subs, SubsMap.read_set]
    by_cases ht : T = topic
    · subst ht
      have hne : (⟨host, port⟩ : Peer) ≠ ⟨peerIp, peerPort⟩ := by
        intro h
        injection h with h1 h2
        exact hs (by rw [h1, h2])
      simp only [if_true, List.mem_append, List.mem_singleton, hne, or_false]
      exact List.mem_erase_of_ne hne
    · simp only [ht, if_false]
  | unsubscribe topic peerIp peerPort =>
    simp only [Op.apply, Unsubscribe_fst]
    by_cases hmem : (⟨peerIp, peerPort⟩ : Peer) ∈ p.subs.read topic
    · simp only [hmem, if_true, SubsMap.read_set]
      by_cases ht : T = topic
      · subst ht
        have hne : (⟨host, port⟩ : Peer) ≠ ⟨peerIp, peerPort⟩ := by
          intro h
          injection h with h1 h2
          exact hu (by rw [h1, h2])
        simp only [if_true]
        exact List.mem_erase_of_ne hne
      · simp only [ht, if_false]
    · simp only [hmem, if_false]
  | publish topic message =>
    simp only [Op.apply, Publish_fst]

/-- A sequence of calls holds a given call, with no call `u` after it, either at its head or
in its tail. -/
theorem live_call_cons (s u op : Op) (rest : List Op) :
    (∃ pre post, op :: rest = pre ++ s :: post ∧ ∀ o ∈ post, o ≠ u) ↔
      (op = s ∧ ∀ o ∈ rest, o ≠ u) ∨
        ∃ pre post, rest = pre ++ s :: post ∧ ∀ o ∈ post, o ≠ u := by
  constructor
  · rintro ⟨pre, post, heq, hpost⟩
    cases pre with
    | nil =>
      simp only [List.nil_append, List.cons.injEq] at heq
      left
      exact ⟨heq.1, heq.2 ▸ hpost⟩
    | cons a pre' =>
      simp only [List.cons_append, List.cons.injEq] at heq
      right
      exact ⟨pre', post, heq.2, hpost⟩
  · rintro (⟨h1, h2⟩ | ⟨pre, post, heq, hpost⟩)
    · exact ⟨[], rest, by rw [h1, List.nil_append], h2⟩
    · exact ⟨op :: pre, post, by rw [heq, List.cons_append], hpost⟩

theorem runOps_mem_iff (T host : String) (port : Int) (ops : List Op) :
    ∀ p : PubSubHandler, (∀ t, (p.subs.read t).Nodup) →
      ((⟨host, port⟩ : Peer) ∈ (runOps p ops).subs.read T ↔
        (∃ pre post, ops = pre ++ Op.subscribe T host port :: post ∧
            ∀ o ∈ post, o ≠ Op.unsubscribe T host port) ∨
          ((⟨host, port⟩ : Peer) ∈ p.subs.read T ∧
            ∀ o ∈ ops, o ≠ Op.unsubscribe T host port)) := by
  induction ops with
  | nil =>
    intro p _
    simp [runOps]
  | cons op rest ih =>
    intro p hnd
    have hrun : runOps p (op :: rest) = runOps (Op.apply p op) rest := rfl
    rw [hrun, ih (Op.apply p op) (Op.apply_nodup p op hnd), live_call_cons,
      List.forall_mem_cons]
    by_cases hs : op = Op.subscribe T host port
    · have hm := mem_after_subscribe p T host port
      have hu : op ≠ Op.unsubscribe T host port := by
        rw [hs]
        intro h
        cases h
      rw [← hs] at hm
      constructor
      · rintro (h | ⟨_, h⟩)
        · exact Or.inl (Or.inr h)
        · exact Or.inl (Or.inl ⟨hs, h⟩)
      · rintro ((⟨_, h⟩ | h) | ⟨_, _, h⟩)
        · exact Or.inr ⟨hm, h⟩
        · exact Or.inl h
        · exact Or.inr ⟨hm, h⟩
    · by_cases hu : op = Op.unsubscribe T host port
      · have hm := not_mem_after_unsubscribe p T host port (hnd T)
        rw [← hu] at hm
        constructor
        · rintro (h | ⟨h, _⟩)
          · exact Or.inl (Or.inr h)
          · exact absurd h hm
        · rintro ((⟨h, _⟩ | h) | ⟨_, h, _⟩)
          · exact absurd h hs
          · exact Or.inl h
          · exact absurd hu h
      · have hm := mem_after_other p T host port op hs hu
        rw [hm]
        constructor
        · rintro (h | ⟨h1, h2⟩)
          · exact Or.inl (Or.inr h)
          · exact Or.inr ⟨h1, hu, h2⟩
        · rintro ((⟨h, _⟩ | h) | ⟨h1, _, h2⟩)
          · exact absurd h hs
          · exact Or.inl h
          · exact Or.inr ⟨h1, h2⟩

/-- C19: after any finite sequence of Subscribe/Unsubscribe/Publish calls on a fresh
handler, the slice of `T` holds an entry equal to `E` exactly when the sequence holds a
`Subscribe(T, E)` with no `Unsubscribe(T, E)` after it. -/
theorem C19_membership_last_operation (ops : List Op) (T host : String) (port : Int) :
    (⟨host, port⟩ : Peer) ∈ (runOps NewPubSubHandler ops).subs.read T ↔
      ∃ pre post, ops = pre ++ Op.subscribe T host port :: post ∧
        ∀ o ∈ post, o ≠ Op.unsubscribe T host port := by
  rw [runOps_mem_iff T host port ops NewPubSubHandler (fun _ => List.nodup_nil)]
  constructor
  · rintro (h | ⟨h, _⟩)
    · exact h
    · cases h
  · intro h
    exact Or.inl h

/-! ## Concurrent Subscribe calls -/

/-- The three steps of a call, taken without interruption, are `Subscribe`. -/
theorem Subscribe_eq_steps (p : PubSubHandler) (topic peerIp : String) (peerPort : Int) :
    (Subscribe p topic peerIp peerPort).1 =
      Subscribe.write (Subscribe.prepare p topic peerIp peerPort) topic
        (Subscribe.readAppend (Subscribe.prepare p topic peerIp peerPort)
          topic peerIp peerPort) := rfl

theorem runSchedule_first_then_second (c1 c2 : SubscribeCall) (p : PubSubHandler) :
    runSchedule c1 c2 (TwoCalls.init p) [false, false, false, true, true, true] =
      ⟨(Subscribe (Subscribe p c1.topic c1.peerIp c1.peerPort).1
          c2.topic c2.peerIp c2.peerPort).1,
        SubscribeProgress.returned, SubscribeProgress.returned⟩ := rfl

theorem runSchedule_second_then_first (c1 c2 : SubscribeCall) (p : PubSubHandler) :
    runSchedule c1 c2 (TwoCalls.init p) [true, true, true, false, false, false] =
      ⟨(Subscribe (Subscribe p c2.topic c2.peerIp c2.peerPort).1
          c1.topic c1.peerIp c1.peerPort).1,
        SubscribeProgress.returned, SubscribeProgress.returned⟩ := rfl

/-- After `Subscribe(T, a)` then `Subscribe(T, b)` with `a` and `b` distinct endpoints, both
are in the slice of `T`. -/
theorem Subscribe_Subscribe_mem (p : PubSubHandler) (T ipa ipb : String) (porta portb : Int)
    (hne : (⟨ipa, porta⟩ : Peer) ≠ ⟨ipb, portb⟩) :
    (⟨ipa, porta⟩ : Peer) ∈
        (Subscribe (Subscribe p T ipa porta).1 T ipb portb).1.subs.read T ∧
    (⟨ipb, portb⟩ : Peer) ∈
        (Subscribe (Subscribe p T ipa porta).1 T ipb portb).1.subs.read T := by
  refine ⟨?_, mem_after_subscribe (Subscribe p T ipa porta).1 T ipb portb⟩
  have hs : Op.subscribe T ipb portb ≠ Op.subscribe T ipa porta := by
    intro h
    injection h with _ h1 h2
    exact hne (by rw [h1, h2])
  have hu : Op.subscribe T ipb portb ≠ Op.unsubscribe T ipa porta := by
    intro h
    cases h
  exact (mem_after_other (Subscribe p T ipa porta).1 T ipa porta
    (Op.subscribe T ipb portb) hs hu).2 (mem_after_subscribe p T ipa porta)

/-- C17 as stated fails: on a handler whose topic "t" holds one subscriber, the calls
`Subscribe("t", "a", 1)` and `Subscribe("t", "b", 2)` with their steps alternating both return,
and the slice of "t" afterwards holds the old subscriber and ("b", 2) only: ("a", 1) is lost,
and the result is that of neither serial order. -/
theorem C17_lost_update_counterexample :
    (runSchedule ⟨"t", "a", 1⟩ ⟨"t", "b", 2⟩
        (TwoCalls.init (Subscribe NewPubSubHandler "t" "seed" 0).1)
        [false, true, false, true, false, true]).first = SubscribeProgress.returned ∧
    (runSchedule ⟨"t", "a", 1⟩ ⟨"t", "b", 2⟩
        (TwoCalls.init (Subscribe NewPubSubHandler "t" "seed" 0).1)
        [false, true, false, true, false, true]).second = SubscribeProgress.returned ∧
    (runSchedule ⟨"t", "a", 1⟩ ⟨"t", "b", 2⟩
        (TwoCalls.init (Subscribe NewPubSubHandler "t" "seed" 0).1)
        [false, true, false, true, false, true]).handler.subs "t" =
      some [⟨"seed", 0⟩, ⟨"b", 2⟩] ∧
    (Subscribe (Subscribe (Subscribe NewPubSubHandler "t" "seed" 0).1 "t" "a" 1).1
        "t" "b" 2).1.subs "t" = some [⟨"seed", 0⟩, ⟨"a", 1⟩, ⟨"b", 2⟩] ∧
    (Subscribe (Subscribe (Subscribe NewPubSubHandler "t" "seed" 0).1 "t" "b" 2).1
        "t" "a" 1).1.subs "t" = some [⟨"seed", 0⟩, ⟨"b", 2⟩, ⟨"a", 1⟩] := by
  decide

/-- C17, amended: the handler has no mutual exclusion; for every topic `T` and distinct
endpoints `E1`, `E2`, when the calls `Subscribe(T, E1)` and `Subscribe(T, E2)` run one after
the other, in either order, the handler state is that of the two calls in that order, and both
`E1` and `E2` are in the slice of `T` afterwards. -/
theorem C17_serial_subscribes (p : PubSubHandler) (T ip1 ip2 : String) (port1 port2 : Int)
    (hne : (⟨ip1, port1⟩ : Peer) ≠ ⟨ip2, port2⟩) :
    ((runSchedule ⟨T, ip1, port1⟩ ⟨T, ip2, port2⟩ (TwoCalls.init p)
          [false, false, false, true, true, true]).handler =
        (Subscribe (Subscribe p T ip1 port1).1 T ip2 port2).1 ∧
      (⟨ip1, port1⟩ : Peer) ∈ (runSchedule ⟨T, ip1, port1⟩ ⟨T, ip2, port2⟩ (TwoCalls.init p)
          [false, false, false, true, true, true]).handler.subs.read T ∧
      (⟨ip2, port2⟩ : Peer) ∈ (runSchedule ⟨T, ip1, port1⟩ ⟨T, ip2, port2⟩ (TwoCalls.init p)
          [false, false, false, true, true, true]).handler.subs.read T) ∧
    ((runSchedule ⟨T, ip1, port1⟩ ⟨T, ip2, port2⟩ (TwoCalls.init p)
          [true, true, true, false, false, false]).handler =
        (Subscribe (Subscribe p T ip2 port2).1 T ip1 port1).1 ∧
      (⟨ip1, port1⟩ : Peer) ∈ (runSchedule ⟨T, ip1, port1⟩ ⟨T, ip2, port2⟩ (TwoCalls.init p)
          [true, true, true, false, false, false]).handler.subs.read T ∧
      (⟨ip2, port2⟩ : Peer) ∈ (runSchedule ⟨T, ip1, port1⟩ ⟨T, ip2, port2⟩ (TwoCalls.init p)
          [true, true, true, false, false, false]).handler.subs.read T) := by
  rw [runSchedule_first_then_second, runSchedule_second_then_first]
  have h12 := Subscribe_Subscribe_mem p T ip1 ip2 port1 port2 hne
  have h21 := Subscribe_Subscribe_mem p T ip2 ip1 port2 port1 (fun h => hne h.symm)
  exact ⟨⟨rfl, h12.1, h12.2⟩, ⟨rfl, h21.2, h21.1⟩⟩

theorem C17_serial_subscribes_witness :
    (⟨"a", 1⟩ : Peer) ≠ ⟨"b", 2⟩ ∧
    (⟨"a", 1⟩ : Peer) ∈ (runSchedule ⟨"t", "a", 1⟩ ⟨"t", "b", 2⟩
        (TwoCalls.init (Subscribe NewPubSubHandler "t" "seed" 0).1)
        [false, false, false, true, true, true]).handler.subs.read "t" ∧
    (⟨"b", 2⟩ : Peer) ∈ (runSchedule ⟨"t", "a", 1⟩ ⟨"t", "b", 2⟩
        (TwoCalls.init (Subscribe NewPubSubHandler "t" "seed" 0).1)
        [false, false, false, true, true, true]).handler.subs.read "t" :=
  ⟨by decide,
   (C17_serial_subscribes (Subscribe NewPubSubHandler "t" "seed" 0).1 "t" "a" "b" 1 2
      (by decide)).1.2⟩

/-! ## Lemmas on the request URL -/

theorem cutAt_append_sep (sep : Char) (a b : List Char) (h : ∀ c ∈ a, c ≠ sep) :
    cutAt sep (a ++ sep :: b) = (a, some b) := by
  induction a with
  | nil => simp [cutAt]
  | cons x xs ih =>
    have hx : x ≠ sep := h x (List.mem_cons_self _ _)
    have hxs : ∀ c ∈ xs, c ≠ sep := fun c hc => h c (List.mem_cons_of_mem _ hc)
    simp [cutAt, hx, ih hxs]

theorem cutAt_of_not_mem (sep : Char) (a : List Char) (h : ∀ c ∈ a, c ≠ sep) :
    cutAt sep a = (a, none) := by
  induction a with
  | nil => simp [cutAt]
  | cons x xs ih =>
    have hx : x ≠ sep := h x (List.mem_cons_self _ _)
    have hxs : ∀ c ∈ xs, c ≠ sep := fun c hc => h c (List.mem_cons_of_mem _ hc)
    simp [cutAt, hx, ih hxs]

theorem digitChar_isDigitByte : ∀ k, k < 10 → isDigitByte (Nat.digitChar k) = true := by
  decide

theorem toDigitsCore_isDigitByte (fuel : Nat) :
    ∀ (n : Nat) (ds : List Char), (∀ c ∈ ds, isDigitByte c = true) →
      ∀ c ∈ Nat.toDigitsCore 10 fuel n ds, isDigitByte c = true := by
  induction fuel with
  | zero =>
    intro n ds hds c hc
    exact hds c hc
  | succ fuel ih =>
    intro n ds hds c hc
    have hd : ∀ x ∈ Nat.digitChar (n % 10) :: ds, isDigitByte x = true := by
      intro x hx
      rcases List.mem_cons.1 hx with hx | hx
      · rw [hx]
        exact digitChar_isDigitByte _ (Nat.mod_lt _ (by decide))
      · exact hds x hx
    simp only [Nat.toDigitsCore] at hc
    by_cases h0 : n / 10 = 0
    · rw [if_pos h0] at hc
      exact hd c hc
    · rw [if_neg h0] at hc
      exact ih _ _ hd c hc

theorem toDigitsCore_ne_nil (fuel : Nat) :
    ∀ (n : Nat) (ds : List Char), ds ≠ [] → Nat.toDigitsCore 10 fuel n ds ≠ [] := by
  induction fuel with
  | zero =>
    intro n ds hds
    exact hds
  | succ fuel ih =>
    intro n ds _
    simp only [Nat.toDigitsCore]
    by_cases h0 : n / 10 = 0
    · rw [if_pos h0]
      exact List.cons_ne_nil _ _
    · rw [if_neg h0]
      exact ih _ _ (List.cons_ne_nil _ _)

/-- The decimal rendering of a non-negative port: one or more decimal digits. -/
theorem fmtInt_digits (port : Int) (h : 0 ≤ port) :
    (fmtInt port).data ≠ [] ∧ ∀ c ∈ (fmtInt port).data, isDigitByte c = true := by
  obtain ⟨n, rfl⟩ := Int.eq_ofNat_of_zero_le h
  have hdata : (fmtInt (n : Int)).data = Nat.toDigitsCore 10 (n + 1) n [] := rfl
  rw [hdata]
  refine ⟨?_, toDigitsCore_isDigitByte (n + 1) n [] (fun c hc => by cases hc)⟩
  simp only [Nat.toDigitsCore]
  by_cases h0 : n / 10 = 0
  · rw [if_pos h0]
    exact List.cons_ne_nil _ _
  · rw [if_neg h0]
    exact toDigitsCore_ne_nil n _ _ (List.cons_ne_nil _ _)

theorem isHostByte_facts (c : Char) (h : isHostByte c = true) :
    c ≠ '#' ∧ c ≠ '?' ∧ c ≠ '/' ∧ c ≠ ':' ∧ isCTLByte c = false := by
  refine ⟨?_, ?_, ?_, ?_, ?_⟩
  · intro hc
    subst hc
    revert h
    decide
  · intro hc
    subst hc
    revert h
    decide
  · intro hc
    subst hc
    revert h
    decide
  · intro hc
    subst hc
    revert h
    decide
  · simp only [isHostByte, isAlnumByte, isCTLByte, Bool.or_eq_true, decide_eq_true_eq,
      decide_eq_false_iff_not] at *
    omega

theorem isDigitByte_facts (c : Char) (h : isDigitByte c = true) :
    c ≠ '#' ∧ c ≠ '?' ∧ c ≠ '/' ∧ c ≠ ':' ∧ c ≠ '@' ∧ isCTLByte c = false := by
  refine ⟨?_, ?_, ?_, ?_, ?_, ?_⟩
  · intro hc
    subst hc
    revert h
    decide
  · intro hc
    subst hc
    revert h
    decide
  · intro hc
    subst hc
    revert h
    decide
  · intro hc
    subst hc
    revert h
    decide
  · intro hc
    subst hc
    revert h
    decide
  · simp only [isDigitByte, isCTLByte, decide_eq_true_eq, decide_eq_false_iff_not] at *
    omega

/-- The target for the text `host:port?query` after the scheme: the host and port, the
empty path sent as a slash, and the query. -/
theorem postTargetOf_endpoint (H D Q : List Char)
    (hH : H ≠ []) (hHb : ∀ c ∈ H, isHostByte c = true)
    (hD : D ≠ []) (hDb : ∀ c ∈ D, isDigitByte c = true)
    (hQ : ∀ c ∈ Q, c ≠ '#' ∧ isCTLByte c = false) :
    postTargetOf (H ++ ':' :: (D ++ '?' :: Q)) =
      PostTarget.sent
        (String.mk ("http://".data ++ (H ++ ':' :: D) ++ ('/' :: '?' :: Q))) := by
  have h1 : cutAt '#' (H ++ ':' :: (D ++ '?' :: Q)) = (H ++ ':' :: (D ++ '?' :: Q), none) := by
    apply cutAt_of_not_mem
    intro c hc
    simp only [List.mem_append, List.mem_cons] at hc
    rcases hc with hc | hc | hc | hc | hc
    · exact (isHostByte_facts c (hHb c hc)).1
    · rw [hc]
      decide
    · exact (isDigitByte_facts c (hDb c hc)).1
    · rw [hc]
      decide
    · exact (hQ c hc).1
  have h2 : (H ++ ':' :: (D ++ '?' :: Q)).any isCTLByte = false := by
    rw [List.any_eq_false]
    intro c hc
    simp only [List.mem_append, List.mem_cons] at hc
    simp only [Bool.not_eq_true]
    rcases hc with hc | hc | hc | hc | hc
    · exact (isHostByte_facts c (hHb c hc)).2.2.2.2
    · rw [hc]
      decide
    · exact (isDigitByte_facts c (hDb c hc)).2.2.2.2.2
    · rw [hc]
      decide
    · exact (hQ c hc).2
  have hHD : ∀ (sep : Char), (∀ c, isHostByte c = true → c ≠ sep) →
      (∀ c, isDigitByte c = true → c ≠ sep) → ':' ≠ sep → ∀ c ∈ H ++ ':' :: D, c ≠ sep := by
    intro sep hs1 hs2 hs3 c hc
    simp only [List.mem_append, List.mem_cons] at hc
    rcases hc with hc | hc | hc
    · exact hs1 c (hHb c hc)
    · rw [hc]
      exact hs3
    · exact hs2 c (hDb c hc)
  have h3 : cutAt '?' (H ++ ':' :: (D ++ '?' :: Q)) =
      (H ++ ':' :: D, some Q) := by
    have hre : H ++ ':' :: (D ++ '?' :: Q) =
        (H ++ ':' :: D) ++ '?' :: Q := by
      simp
    rw [hre]
    exact cutAt_append_sep '?' _ _
      (hHD '?' (fun c h => (isHostByte_facts c h).2.1)
        (fun c h => (isDigitByte_facts c h).2.1) (by decide))
  have h4 : cutAt '/' (H ++ ':' :: D) = (H ++ ':' :: D, none) :=
    cutAt_of_not_mem '/' _
      (hHD '/' (fun c h => (isHostByte_facts c h).2.2.1)
        (fun c h => (isDigitByte_facts c h).2.2.1) (by decide))
  have h5 : cutAt ':' (H ++ ':' :: D) = (H, some D) :=
    cutAt_append_sep ':' H D (fun c hc => (isHostByte_facts c (hHb c hc)).2.2.2.1)
  have h6 : H.all isHostByte = true := by
    rw [List.all_eq_true]
    exact hHb
  have h7 : D.all isDigitByte = true := by
    rw [List.all_eq_true]
    exact hDb
  have h8 : D.any (fun c => decide (c = ':' ∨ c = '@')) = false := by
    rw [List.any_eq_false]
    intro c hc
    simp only [decide_eq_true_eq, not_or]
    exact ⟨(isDigitByte_facts c (hDb c hc)).2.2.2.1, (isDigitByte_facts c (hDb c hc)).2.2.2.2.1⟩
  simp only [postTargetOf, h1, h2, h3, h4, h5, h6, h7, h8]
  simp [hH, hD]

/-! ## The delivery URL -/

/-- C10 as stated fails.  The subscribe handler stores the host `127.0.0.1:9001/x` with
port 80, and for topic weather the delivery is posted to
`http://127.0.0.1:9001/x:80?topic=weather`: the path `/x:80` is not empty, so no slash stands
before the query, and the URL is not the claimed `http://127.0.0.1:9001/x:80/?topic=weather`.
The handler also stores host `127.0.0.1` with port -1, and for that endpoint the URL parser
rejects the URL text, so the delivery is posted to no URL at all. -/
theorem C10_delivery_target_counterexample :
    ((SubscribeHandler NewPubSubHandler
        ⟨Values.ofPairs [("topic", "weather"), ("peerIp", "127.0.0.1:9001/x"),
          ("peerPort", "80")], Except.ok []⟩).1.subs "weather" =
        some [⟨"127.0.0.1:9001/x", 80⟩] ∧
      postTarget (WriteData.request ⟨"127.0.0.1:9001/x", 80⟩ "weather" []).url =
        PostTarget.sent "http://127.0.0.1:9001/x:80?topic=weather" ∧
      postTarget (WriteData.request ⟨"127.0.0.1:9001/x", 80⟩ "weather" []).url ≠
        PostTarget.sent
          ("http://" ++ "127.0.0.1:9001/x" ++ ":" ++ fmtInt 80 ++ "/?topic=" ++ "weather")) ∧
    ((SubscribeHandler NewPubSubHandler
        ⟨Values.ofPairs [("topic", "weather"), ("peerIp", "127.0.0.1"),
          ("peerPort", "-1")], Except.ok []⟩).1.subs "weather" =
        some [⟨"127.0.0.1", -1⟩] ∧
      postTarget (WriteData.request ⟨"127.0.0.1", -1⟩ "weather" []).url =
        PostTarget.rejected ∧
      postTarget (WriteData.request ⟨"127.0.0.1", -1⟩ "weather" []).url ≠
        PostTarget.sent
          ("http://" ++ "127.0.0.1" ++ ":" ++ fmtInt (-1) ++ "/?topic=" ++ "weather")) := by
  decide

/-- C10, amended: for an endpoint whose host is a non-empty host name or IPv4 address
(letters, digits, dots, hyphens) and whose port is not negative, and a topic without `#` and
without control characters, the URL a delivery is posted to is exactly "http://", the host, a
colon, the port in decimal, "/?topic=" and the topic; the endpoint's `Url()` is "http://", the
host, a colon and the port in decimal. -/
theorem C10_delivery_target (host T : String) (port : Int) (msg : Bytes)
    (hne : host.data ≠ []) (hhost : ∀ c ∈ host.data, isHostByte c = true)
    (hport : 0 ≤ port) (htopic : ∀ c ∈ T.data, c ≠ '#' ∧ isCTLByte c = false) :
    postTarget (WriteData.request ⟨host, port⟩ T msg).url =
        PostTarget.sent ("http://" ++ host ++ ":" ++ fmtInt port ++ "/?topic=" ++ T) ∧
    Peer.Url ⟨host, port⟩ = "http://" ++ host ++ ":" ++ fmtInt port := by
  refine ⟨?_, rfl⟩
  have hdata : (WriteData.request ⟨host, port⟩ T msg).url.data =
      "http://".data ++
        (host.data ++ ':' :: ((fmtInt port).data ++ '?' :: ("topic=".data ++ T.data))) := by
    simp [WriteData.request, Peer.Url]
  have hQ : ∀ c ∈ "topic=".data ++ T.data, c ≠ '#' ∧ isCTLByte c = false := by
    have hlit : ∀ c ∈ "topic=".data, c ≠ '#' ∧ isCTLByte c = false := by decide
    intro c hc
    rcases List.mem_append.1 hc with hc | hc
    · exact hlit c hc
    · exact htopic c hc
  have hd := fmtInt_digits port hport
  unfold postTarget
  rw [hdata, List.take_left' (by rfl), if_pos rfl, List.drop_left' (by rfl),
    postTargetOf_endpoint host.data (fmtInt port).data _ hne hhost hd.1 hd.2 hQ]
  congr 1
  apply String.ext
  simp

theorem C10_delivery_target_witness :
    "127.0.0.1".data ≠ [] ∧ (∀ c ∈ "127.0.0.1".data, isHostByte c = true) ∧
    (0 : Int) ≤ 9001 ∧ (∀ c ∈ "weather".data, c ≠ '#' ∧ isCTLByte c = false) ∧
    postTarget (WriteData.request ⟨"127.0.0.1", 9001⟩ "weather" [114, 97, 105, 110]).url =
      PostTarget.sent "http://127.0.0.1:9001/?topic=weather" :=
  ⟨by decide, by decide, by decide, by decide,
   (C10_delivery_target "127.0.0.1" "weather" 9001 [114, 97, 105, 110]
      (by decide) (by decide) (by decide) (by decide)).1⟩

end PubSub
